import Mathlib

/-!
Verification of the council-assistant repository against its specification.

The Python sources (notebooks `0B_Scraping_KCC_Meetings.ipynb`,
`0Z_Scraping_KentOnline_news_draft.ipynb`, `test.ipynb`) and the prompt
template file `prompts/mom_summarisation_v2.prompt` are shallowly embedded
below.  HTTP fetching and HTML parsing (requests / BeautifulSoup) are
modelled by an explicit environment value describing what the network and
the parsed page contain; all program logic operating on that data is
translated function by function from the source.  Python exceptions are
modelled with `Except` / explicit error constructors; Python `None` is
`Option.none`.
-/

/-! ## Python string primitives used by the notebooks -/

/-- Whitespace characters recognised by Python's `str.strip` / `str.split`
(ASCII portion). -/
def pyWhitespace (c : Char) : Bool :=
  c == ' ' || c == '\t' || c == '\n' || c == '\r' || c == '\x0b' || c == '\x0c'

/-- Python `str.strip()` (no argument): drop leading and trailing whitespace. -/
def pyStrip (s : String) : String :=
  (((s.toList.dropWhile pyWhitespace).reverse.dropWhile pyWhitespace).reverse).asString

/-- Python `str.upper()` restricted to ASCII (the notebooks only feed it
ASCII keywords and ids). -/
def pyUpper (s : String) : String :=
  (s.toList.map Char.toUpper).asString

/-- Python `str.lower()` restricted to ASCII. -/
def pyLower (s : String) : String :=
  (s.toList.map Char.toLower).asString

/-- Accumulator loop for `pySplitWs`: `acc` holds the reversed current word. -/
def splitWsAux : List Char → List Char → List (List Char)
  | [], acc => if acc.isEmpty then [] else [acc.reverse]
  | c :: cs, acc =>
    if pyWhitespace c then
      if acc.isEmpty then splitWsAux cs [] else acc.reverse :: splitWsAux cs []
    else splitWsAux cs (c :: acc)

/-- Python `str.split()` with no argument: split on whitespace runs,
returning no empty fields.  Used for `len(item_text.split())`. -/
def pySplitWs (s : String) : List String :=
  (splitWsAux s.toList []).map List.asString

/-- Python `str.lstrip("/")`: drop leading slash characters. -/
def lstripSlash (s : String) : String :=
  (s.toList.dropWhile (fun c => c == '/')).asString

/-- Python `str.strip("_")`: drop leading and trailing underscores
(used by `slugify` in `test.ipynb`). -/
def stripUnderscore (s : String) : String :=
  (((s.toList.dropWhile (fun c => c == '_')).reverse.dropWhile
      (fun c => c == '_')).reverse).asString

/-- Character class `\w` of Python's `re` module (ASCII portion):
letters, digits and underscore. -/
def isWordChar (c : Char) : Bool :=
  c.isAlphanum || c == '_'

/-- Occurrence count of a pattern inside a character list (used for the
prompt-template placeholder claims). -/
def countOccsAux (pat : List Char) : List Char → Nat
  | [] => if pat.isEmpty then 1 else 0
  | c :: cs => (if pat.isPrefixOf (c :: cs) then 1 else 0) + countOccsAux pat cs

/-- Number of occurrences (at any position, overlapping counted) of `pat`
inside `s`. -/
def countOccs (s pat : String) : Nat :=
  countOccsAux pat.toList s.toList

/-- Substring containment test, modelling Python's `"x" in s`. -/
def containsSub (s sub : String) : Bool :=
  decide (List.IsInfix sub.toList s.toList)

/-! ## MD5 (the `hashlib.md5(...).hexdigest()` call used by the agenda
chunk cell for its `chunk_id` fallback), RFC 1321, over UTF-8 bytes. -/

/-- Round constants of MD5 (`floor(abs(sin(i+1)) * 2^32)`). -/
def md5K : List Nat :=
  [3614090360, 3905402710, 606105819, 3250441966,
   4118548399, 1200080426, 2821735955, 4249261313,
   1770035416, 2336552879, 4294925233, 2304563134,
   1804603682, 4254626195, 2792965006, 1236535329,
   4129170786, 3225465664, 643717713, 3921069994,
   3593408605, 38016083, 3634488961, 3889429448,
   568446438, 3275163606, 4107603335, 1163531501,
   2850285829, 4243563512, 1735328473, 2368359562,
   4294588738, 2272392833, 1839030562, 4259657740,
   2763975236, 1272893353, 4139469664, 3200236656,
   681279174, 3936430074, 3572445317, 76029189,
   3654602809, 3873151461, 530742520, 3299628645,
   4096336452, 1126891415, 2878612391, 4237533241,
   1700485571, 2399980690, 4293915773, 2240044497,
   1873313359, 4264355552, 2734768916, 1309151649,
   4149444226, 3174756917, 718787259, 3951481745]

/-- Per-round left-rotation amounts of MD5. -/
def md5S : List Nat :=
  [7, 12, 17, 22, 7, 12, 17, 22, 7, 12, 17, 22, 7, 12, 17, 22,
   5, 9, 14, 20, 5, 9, 14, 20, 5, 9, 14, 20, 5, 9, 14, 20,
   4, 11, 16, 23, 4, 11, 16, 23, 4, 11, 16, 23, 4, 11, 16, 23,
   6, 10, 15, 21, 6, 10, 15, 21, 6, 10, 15, 21, 6, 10, 15, 21]

/-- Addition modulo `2^32`. -/
def add32 (a b : Nat) : Nat := (a + b) % 4294967296

/-- Bitwise complement within 32 bits (arguments below 2^32). -/
def not32 (x : Nat) : Nat := 4294967295 - x

/-- Left rotation within 32 bits. -/
def rotl32 (x n : Nat) : Nat :=
  ((x <<< n) % 4294967296) ||| (x >>> (32 - n))

/-- Split a byte list into chunks of 64 bytes.  The fuel argument (always
called with the list length, which bounds the number of chunks) makes the
recursion structural. -/
def chunks64Fuel : Nat → List Nat → List (List Nat)
  | _, [] => []
  | 0, l => [l]
  | fuel + 1, l =>
    if l.length ≤ 64 then [l]
    else l.take 64 :: chunks64Fuel fuel (l.drop 64)

/-- Split a byte list into chunks of 64 bytes. -/
def chunks64 (l : List Nat) : List (List Nat) :=
  chunks64Fuel l.length l

/-- Little-endian bytes of a number, fixed width. -/
def leBytes : Nat → Nat → List Nat
  | 0, _ => []
  | w + 1, x => (x % 256) :: leBytes w (x / 256)

/-- MD5 padding: append `0x80`, zero bytes to 56 mod 64, then the 64-bit
little-endian bit length. -/
def md5pad (msg : List Nat) : List Nat :=
  let len := msg.length
  let padLen := (119 - (len % 64)) % 64
  msg ++ (128 :: List.replicate padLen 0) ++ leBytes 8 ((len * 8) % 18446744073709551616)

/-- Read the sixteen 32-bit little-endian words of one 64-byte block. -/
def blockWords (block : List Nat) : List Nat :=
  (List.range 16).map fun i =>
    block.getD (4 * i) 0 + 256 * block.getD (4 * i + 1) 0 +
      65536 * block.getD (4 * i + 2) 0 + 16777216 * block.getD (4 * i + 3) 0

/-- One MD5 round `i` acting on the state `(a, b, c, d)`. -/
def md5Round (m : List Nat) (st : Nat × Nat × Nat × Nat) (i : Nat) :
    Nat × Nat × Nat × Nat :=
  let (a, b, c, d) := st
  let f :=
    if i < 16 then (b &&& c) ||| (not32 b &&& d)
    else if i < 32 then (d &&& b) ||| (not32 d &&& c)
    else if i < 48 then b ^^^ c ^^^ d
    else c ^^^ (b ||| not32 d)
  let g :=
    if i < 16 then i
    else if i < 32 then (5 * i + 1) % 16
    else if i < 48 then (3 * i + 5) % 16
    else (7 * i) % 16
  let f' := add32 (add32 (add32 f a) (md5K.getD i 0)) (m.getD g 0)
  (d, add32 b (rotl32 f' (md5S.getD i 0)), b, c)

/-- Process one 64-byte block into the running state. -/
def md5Block (st : Nat × Nat × Nat × Nat) (block : List Nat) :
    Nat × Nat × Nat × Nat :=
  let m := blockWords block
  let (a, b, c, d) := st
  let (a', b', c', d') := (List.range 64).foldl (md5Round m) (a, b, c, d)
  (add32 a a', add32 b b', add32 c c', add32 d d')

/-- Lower-case hexadecimal digit. -/
def hexDigit (n : Nat) : Char :=
  if n < 10 then Char.ofNat (48 + n) else Char.ofNat (87 + n)

/-- Two lower-case hex digits of one byte. -/
def byteHex (b : Nat) : List Char :=
  [hexDigit (b / 16), hexDigit (b % 16)]

/-- MD5 digest of a byte list, as a lower-case hex string. -/
def md5BytesHex (msg : List Nat) : String :=
  let st := (chunks64 (md5pad msg)).foldl md5Block
    (1732584193, 4023233417, 2562383102, 271733878)
  let (a, b, c, d) := st
  (((leBytes 4 a ++ leBytes 4 b ++ leBytes 4 c ++ leBytes 4 d).map byteHex).flatten).asString

/-- UTF-8 encoding of one character (the `str.encode()` call). -/
def utf8Bytes (c : Char) : List Nat :=
  let n := c.toNat
  if n < 128 then [n]
  else if n < 2048 then [192 + n / 64, 128 + n % 64]
  else if n < 65536 then [224 + n / 4096, 128 + (n / 64) % 64, 128 + n % 64]
  else [240 + n / 262144, 128 + (n / 4096) % 64, 128 + (n / 64) % 64, 128 + n % 64]

/-- UTF-8 byte list of a string. -/
def strBytes (s : String) : List Nat :=
  (s.toList.map utf8Bytes).flatten

/-- The `hashlib.md5(text.encode()).hexdigest()` call: MD5 of the UTF-8
encoding of a string, in lower-case hex. -/
def md5hex (s : String) : String :=
  md5BytesHex (strBytes s)

/-! ## Meeting scraper (`0B_Scraping_KCC_Meetings.ipynb`)

The notebook fetches `{BASE_URL}/ieListDocuments.aspx?CId={cid}&MId={mid}`
with `requests.get(url, timeout=6)` and parses the HTML with BeautifulSoup.
The network and the HTML structure are modelled by `Fetch`: for each
meeting id and committee id the environment either raises an exception
(timeouts, connection errors) or yields a response with a status code and
a parsed page.  A `Page` records exactly the features the notebook reads:
the `<title>` tag (absent tag modelled as `none`, on which `.text` raises),
the texts of the `h1`/`h2` headings, and the `<tr>` rows with their `<td>`
cells. -/

/-- Base URL constant of the notebook. -/
def BASE_URL : String := "https://democracy.kent.gov.uk"

/-- One `<td>` cell of an agenda row: whether it carries the
`mgItemNumberCell` class, its text content, its `<p>` paragraph texts and
the `href` values of its `<a href=...>` anchors. -/
structure Cell where
  isNumberCell : Bool
  text : String
  paragraphs : List String
  hrefs : List String
deriving DecidableEq, Repr

/-- One `<tr>` row: its `<td>` cells in document order. -/
structure Row where
  cells : List Cell
deriving DecidableEq, Repr

/-- The observable content of a fetched meeting page. -/
structure Page where
  titleTag : Option String
  headings : List String
  rows : List Row
deriving DecidableEq, Repr

/-- Outcome of `requests.get` for one URL: a raised exception or a
response with a status code and a (parsed) page body. -/
inductive HttpResult where
  | exc (msg : String)
  | resp (status : Nat) (page : Page)
deriving DecidableEq, Repr

/-- The network/HTML environment: meeting id and committee id determine
the outcome of the fetch. -/
def Fetch : Type := Nat → String → HttpResult

/-- Status keywords of the notebook's regex
`\b(CANCELLED|WITHDRAWN|POSTPONED|MOVED|NEW)\b`, in alternation order. -/
def statusKeywords : List String :=
  ["CANCELLED", "WITHDRAWN", "POSTPONED", "MOVED", "NEW"]

/-- Whole-word match of keyword `k` at position `i` of `s`: the preceding
character (if any) is not a word character, `k` occurs at `i`, and the
following character (if any) is not a word character — the `\b...\b`
anchors of the regex. -/
def keywordAt (s : List Char) (i : Nat) (k : List Char) : Bool :=
  (decide (i = 0) || !isWordChar (s.getD (i - 1) ' ')) &&
    k.isPrefixOf (s.drop i) &&
    (match (s.drop i).drop k.length with
     | [] => true
     | c :: _ => !isWordChar c)

/-- The scan of `re.search`: try each start position of `s` from `i`
upwards (the third argument is the suffix of `s` from `i`, driving the
structural recursion) and at each position the alternation branches in
order; return the first keyword that matches. -/
def reSearchAux (s : List Char) : Nat → List Char → Option String
  | _, [] => none
  | i, _ :: rest =>
    match statusKeywords.find? (fun k => keywordAt s i k.toList) with
    | some k => some k
    | none => reSearchAux s (i + 1) rest

/-- `re.search` of the status keyword pattern over the whole string. -/
def reSearchKeyword (s : List Char) : Option String :=
  reSearchAux s 0 s

/-- Status detection of `scrape_meeting_metadata`:
`re.search(r'\b(CANCELLED|WITHDRAWN|POSTPONED|MOVED|NEW)\b', page_title.upper())`,
then `match.group(1).lower()` or the default `"scheduled"`. -/
def detectStatus (page_title : String) : String :=
  match reSearchKeyword (pyUpper page_title).toList with
  | some k => pyLower k
  | none => "scheduled"

/-- Test for a `\d{4}` digit run, the second heading-candidate condition
(`re.search(r"\d{4}", tag.get_text())`). -/
def hasFourDigitRun : List Char → Bool
  | a :: b :: c :: d :: rest =>
    (a.isDigit && b.isDigit && c.isDigit && d.isDigit) ||
      hasFourDigitRun (b :: c :: d :: rest)
  | _ => false

/-- Groups of the heading regex
`^(.*?)\s*-\s*(Monday|Tuesday|Wednesday|Thursday|Friday),\s*(.*?),\s*(\d{4})\s*(\d{1,2}\.\d{2})\s*(am|pm)`. -/
structure HeadingGroups where
  g1 : String
  g2 : String
  g3 : String
  g4 : String
  g5 : String
  g6 : String
deriving DecidableEq, Repr

/-- Weekday alternation of the heading regex, in order. -/
def weekdays : List String :=
  ["Monday", "Tuesday", "Wednesday", "Thursday", "Friday"]

/-- Match `(\d{1,2}\.\d{2})\s*(am|pm)` at the front of `r` (backtracking
from the two-digit hour to the one-digit hour, as the greedy `\d{1,2}`
does before the literal dot). -/
def matchTimePart (r : List Char) : Option (String × String) :=
  (match r with
   | h1 :: h2 :: '.' :: m1 :: m2 :: rest =>
     if h1.isDigit && h2.isDigit && m1.isDigit && m2.isDigit then
       matchAmPm [h1, h2, '.', m1, m2] rest
     else none
   | _ => none).orElse fun _ =>
  (match r with
   | h1 :: '.' :: m1 :: m2 :: rest =>
     if h1.isDigit && m1.isDigit && m2.isDigit then
       matchAmPm [h1, '.', m1, m2] rest
     else none
   | _ => none)
where
  /-- Match `\s*(am|pm)` after the time digits. -/
  matchAmPm (g5 : List Char) (rest : List Char) : Option (String × String) :=
    match rest.dropWhile pyWhitespace with
    | 'a' :: 'm' :: _ => some (g5.asString, "am")
    | 'p' :: 'm' :: _ => some (g5.asString, "pm")
    | _ => none

/-- Match `,\s*(\d{4})\s*` then the time part, after the lazy group 3. -/
def matchAfterG3 (g1 day g3 : String) (rest : List Char) : Option HeadingGroups :=
  match rest with
  | ',' :: r1 =>
    match r1.dropWhile pyWhitespace with
    | a :: b :: c :: d :: r2 =>
      if a.isDigit && b.isDigit && c.isDigit && d.isDigit then
        match matchTimePart (r2.dropWhile pyWhitespace) with
        | some (g5, g6) =>
          some { g1 := g1, g2 := day, g3 := g3, g4 := [a, b, c, d].asString,
                 g5 := g5, g6 := g6 }
        | none => none
      else none
    | _ => none
  | _ => none

/-- Match `\s*-\s*(Monday|...|Friday),\s*` then the lazy group 3 (tried
shortest-first, the `.*?` semantics) and the rest of the pattern. -/
def matchAfterG1 (g1 : String) (rest : List Char) : Option HeadingGroups :=
  match rest.dropWhile pyWhitespace with
  | '-' :: r1 =>
    let r2 := r1.dropWhile pyWhitespace
    weekdays.findSome? fun day =>
      if day.toList.isPrefixOf r2 then
        match r2.drop day.length with
        | ',' :: r3 =>
          let r4 := r3.dropWhile pyWhitespace
          (List.range (r4.length + 1)).findSome? fun j =>
            matchAfterG3 g1 day (r4.take j).asString (r4.drop j)
        | _ => none
      else none
  | _ => none

/-- The anchored heading match (`re.match`): group 1 is lazy, so start
positions for the rest of the pattern are tried shortest-first. -/
def matchHeading (s : String) : Option HeadingGroups :=
  let l := s.toList
  (List.range (l.length + 1)).findSome? fun i =>
    matchAfterG1 (l.take i).asString (l.drop i)

/-- One of the ordinal suffixes `st`, `nd`, `rd`, `th`. -/
def isOrdinalSuffix (a b : Char) : Bool :=
  (a == 's' && b == 't') || (a == 'n' && b == 'd') ||
    (a == 'r' && b == 'd') || (a == 't' && b == 'h')

/-- The substitution `re.sub(r'(\d{1,2})(st|nd|rd|th)', r'\1', date_str)`
of `clean_day_suffix`: scan left to right; at each position the greedy
`\d{1,2}` tries two digits before one, followed by an ordinal suffix; on a
match the digits are kept, the suffix dropped, and the scan continues
after the match (non-overlapping), otherwise it advances one character. -/
def cleanDaySuffixFuel : Nat → List Char → List Char
  | _, [] => []
  | 0, l => l
  | fuel + 1, d1 :: d2 :: s1 :: s2 :: rest =>
    if d1.isDigit && d2.isDigit && isOrdinalSuffix s1 s2 then
      d1 :: d2 :: cleanDaySuffixFuel fuel rest
    else if d1.isDigit && isOrdinalSuffix d2 s1 then
      d1 :: cleanDaySuffixFuel fuel (s2 :: rest)
    else d1 :: cleanDaySuffixFuel fuel (d2 :: s1 :: s2 :: rest)
  | fuel + 1, [d1, s1, s2] =>
    if d1.isDigit && isOrdinalSuffix s1 s2 then [d1]
    else d1 :: cleanDaySuffixFuel fuel [s1, s2]
  | _ + 1, l => l

/-- `clean_day_suffix` of the notebook.  The fuel (the list length, which
bounds the number of scan steps, each consuming at least one character)
makes the recursion structural. -/
def clean_day_suffix (date_str : String) : String :=
  (cleanDaySuffixFuel date_str.toList.length date_str.toList).asString

/-! ## `datetime.strptime` for the two fixed formats used by the notebook

CPython's `_strptime` compiles `%d` to `3[01]|[12]\d|0[1-9]|[1-9]`, `%I` to
`1[0-2]|0[1-9]|[1-9]`, `%M` to `[0-5]\d|\d`, `%Y` to four digits, `%B` to
the month-name alternation (case-insensitive), and a space in the format
to a whitespace run; unconverted trailing data or an invalid calendar date
raises `ValueError`. -/

/-- Numeric value of a digit character. -/
def digitVal (c : Char) : Nat := c.toNat - 48

/-- The `%d` field: two-digit day `01`–`31`, else one digit `1`–`9`. -/
def parseDayField : List Char → Option (Nat × List Char)
  | a :: b :: rest =>
    if a.isDigit && b.isDigit &&
        ((a == '3' && digitVal a * 10 + digitVal b ≤ 31) || a == '1' || a == '2' ||
          (a == '0' && b != '0')) then
      some (digitVal a * 10 + digitVal b, rest)
    else if a.isDigit && a != '0' then some (digitVal a, b :: rest)
    else none
  | [a] => if a.isDigit && a != '0' then some (digitVal a, []) else none
  | [] => none

/-- The `%I` field: `10`–`12`, `01`–`09`, else one digit `1`–`9`. -/
def parseHour12Field : List Char → Option (Nat × List Char)
  | a :: b :: rest =>
    if a.isDigit && b.isDigit &&
        ((a == '1' && digitVal b ≤ 2) || (a == '0' && b != '0')) then
      some (digitVal a * 10 + digitVal b, rest)
    else if a.isDigit && a != '0' then some (digitVal a, b :: rest)
    else none
  | [a] => if a.isDigit && a != '0' then some (digitVal a, []) else none
  | [] => none

/-- The `%M` field: two digits `00`–`59`, else one digit. -/
def parseMinuteField : List Char → Option (Nat × List Char)
  | a :: b :: rest =>
    if a.isDigit && b.isDigit && a ≤ '5' then
      some (digitVal a * 10 + digitVal b, rest)
    else if a.isDigit then some (digitVal a, b :: rest)
    else none
  | [a] => if a.isDigit then some (digitVal a, []) else none
  | [] => none

/-- A whitespace run of length at least one (a space in the format). -/
def parseWs1 : List Char → Option (List Char)
  | c :: rest => if pyWhitespace c then some (rest.dropWhile pyWhitespace) else none
  | [] => none

/-- Month names matched by `%B`, in month order. -/
def monthNames : List String :=
  ["january", "february", "march", "april", "may", "june",
   "july", "august", "september", "october", "november", "december"]

/-- The `%B` field: a full month name, case-insensitively. -/
def parseMonthField (l : List Char) : Option (Nat × List Char) :=
  (List.range 12).findSome? fun i =>
    let nm := (monthNames.getD i "").toList
    if nm.isPrefixOf (l.map Char.toLower) then some (i + 1, l.drop nm.length)
    else none

/-- The `%Y` field: exactly four digits. -/
def parseYear4 : List Char → Option (Nat × List Char)
  | a :: b :: c :: d :: rest =>
    if a.isDigit && b.isDigit && c.isDigit && d.isDigit then
      some (digitVal a * 1000 + digitVal b * 100 + digitVal c * 10 + digitVal d, rest)
    else none
  | _ => none

/-- Gregorian leap-year rule used by `datetime`. -/
def isLeapYear (y : Nat) : Bool :=
  y % 4 == 0 && (y % 100 != 0 || y % 400 == 0)

/-- Days in a month, for `datetime`'s day-of-month validation. -/
def daysInMonth (y m : Nat) : Nat :=
  if m == 2 then (if isLeapYear y then 29 else 28)
  else if m == 4 || m == 6 || m == 9 || m == 11 then 30
  else 31

/-- `datetime.strptime(s, "%d %B, %Y")`, returning `(year, month, day)`
or `none` for the `ValueError` cases (pattern mismatch, trailing data, or
an invalid calendar date). -/
def strptimeDMY (s : String) : Option (Nat × Nat × Nat) := do
  let (d, r1) ← parseDayField s.toList
  let r2 ← parseWs1 r1
  let (m, r3) ← parseMonthField r2
  let r4 ← match r3 with | ',' :: t => some t | _ => none
  let r5 ← parseWs1 r4
  let (y, r6) ← parseYear4 r5
  if r6.isEmpty && 1 ≤ y && 1 ≤ d && d ≤ daysInMonth y m then some (y, m, d)
  else none

/-- `datetime.strptime(s, "%I.%M%p")`, returning `(hour24, minute)` or
`none` for the `ValueError` cases. -/
def strptimeIMp (s : String) : Option (Nat × Nat) := do
  let (h12, r1) ← parseHour12Field s.toList
  let r2 ← match r1 with | '.' :: t => some t | _ => none
  let (mi, r3) ← parseMinuteField r2
  let (isPm, r4) ←
    match r3.map Char.toLower with
    | 'a' :: 'm' :: t => some (false, t)
    | 'p' :: 'm' :: t => some (true, t)
    | _ => none
  if r4.isEmpty && mi ≤ 59 then
    let h24 := if isPm then (if h12 == 12 then 12 else h12 + 12)
               else (if h12 == 12 then 0 else h12)
    some (h24, mi)
  else none

/-- Two-digit zero padding of `strftime`. -/
def pad2 (n : Nat) : String :=
  if n < 10 then "0" ++ toString n else toString n

/-- Four-digit zero padding (`%Y`; the parsed year always has four
digits here). -/
def pad4 (n : Nat) : String :=
  if n < 10 then "000" ++ toString n
  else if n < 100 then "00" ++ toString n
  else if n < 1000 then "0" ++ toString n
  else toString n

/-- `strftime("%Y-%m-%d")`. -/
def fmtDate (y m d : Nat) : String :=
  pad4 y ++ "-" ++ pad2 m ++ "-" ++ pad2 d

/-- `strftime("%H:%M")`. -/
def fmtTime (h mi : Nat) : String :=
  pad2 h ++ ":" ++ pad2 mi

/-! ## `scrape_meeting_metadata` and `run_scrape_batch` -/

/-- One agenda item dictionary
`{item_number, item_title, item_text, pdf_urls}` built by the agenda
extraction loop. -/
structure AgendaItem where
  item_number : String
  item_title : String
  item_text : String
  pdf_urls : List String
deriving DecidableEq, Repr

/-- The successful return dictionary of `scrape_meeting_metadata`, fields
in the insertion order of the Python dict literal. -/
structure MeetingRecord where
  web_meeting_code : String
  meeting_title : String
  meeting_status : String
  committee_name : Option String
  meeting_date : Option String
  meeting_time : Option String
  agenda_items : List AgendaItem
deriving DecidableEq, Repr

/-- A line of the output JSONL file: a record written by the scraper —
either a full meeting dictionary or the error dictionary
`{"web_meeting_code": str(mid), "error": str(e)}`. -/
inductive ScrapeRec where
  | full (r : MeetingRecord)
  | err (web_meeting_code : String) (error : String)
deriving DecidableEq, Repr

/-- Key set (in insertion order) of the JSON object a `ScrapeRec`
serialises to. -/
def recKeys : ScrapeRec → List String
  | .full _ =>
    ["web_meeting_code", "meeting_title", "meeting_status", "committee_name",
     "meeting_date", "meeting_time", "agenda_items"]
  | .err _ _ => ["web_meeting_code", "error"]

/-- The `web_meeting_code` value carried by either record shape. -/
def wmcOf : ScrapeRec → String
  | .full r => r.web_meeting_code
  | .err c _ => c

/-- The agenda extraction for one `<tr>` row: requires a
`td.mgItemNumberCell` and more than one `td`; the second `td` supplies
title (first `<p>`), text (remaining `<p>`s joined with newlines) and the
`.pdf` links resolved against `BASE_URL`. -/
def rowToItem (row : Row) : Option AgendaItem :=
  match row.cells.find? (fun c => c.isNumberCell), row.cells with
  | some numberCell, _ :: contentTd :: _ =>
    some
      { item_number := pyStrip numberCell.text
        item_title :=
          match contentTd.paragraphs with
          | [] => ""
          | p :: _ => pyStrip p
        item_text :=
          if contentTd.paragraphs.length > 1 then
            String.intercalate "\n" ((contentTd.paragraphs.drop 1).map pyStrip)
          else ""
        pdf_urls :=
          (contentTd.hrefs.filter
            (fun h => (".pdf").toList.isSuffixOf (pyLower h).toList)).map
            (fun h => BASE_URL ++ "/" ++ lstripSlash h) }
  | _, _ => none

/-- The agenda item loop over all rows of the page. -/
def extractAgendaItems (rows : List Row) : List AgendaItem :=
  rows.filterMap rowToItem

/-- The heading the notebook selects: the first `h1`/`h2` whose text
contains `"Committee"` or a four-digit run, stripped; `""` when none
qualifies. -/
def fullHeadingOf (page : Page) : String :=
  match page.headings.find?
      (fun h => containsSub h ("Committee") || hasFourDigitRun h.toList) with
  | some h => pyStrip h
  | none => ""

/-- The success dictionary of `scrape_meeting_metadata` assembled from
the parsed parts. -/
def mkMeetingRecord (mid : Nat) (full_heading status : String)
    (committee_name meeting_date meeting_time : Option String)
    (rows : List Row) : MeetingRecord :=
  { web_meeting_code := toString mid
    meeting_title := full_heading
    meeting_status := status
    committee_name := committee_name
    meeting_date := meeting_date
    meeting_time := meeting_time
    agenda_items := extractAgendaItems rows }

/-- The body of `scrape_meeting_metadata`'s `try` block after the status
check: title access (raising on a missing `<title>` tag), status
detection, heading selection, the heading regex with its two
`datetime.strptime` calls (raising `ValueError` on unparseable data), and
agenda extraction.  `Except.error` carries the exception text that
becomes the error record. -/
def parsePage (mid : Nat) (page : Page) : Except String MeetingRecord :=
  match page.titleTag with
  | none => Except.error "AttributeError: NoneType has no attribute text"
  | some t =>
    let status := detectStatus (pyStrip t)
    let full_heading := fullHeadingOf page
    match matchHeading full_heading with
    | none =>
      Except.ok (mkMeetingRecord mid full_heading status none none none page.rows)
    | some g =>
      match strptimeDMY (clean_day_suffix g.g3 ++ ", " ++ g.g4) with
      | none => Except.error "ValueError: time data does not match format pd pB, pY"
      | some (y, m, d) =>
        match strptimeIMp (g.g5 ++ g.g6) with
        | none => Except.error "ValueError: time data does not match format pI.pMpp"
        | some (hh, mi) =>
          Except.ok (mkMeetingRecord mid full_heading status (some (pyStrip g.g1))
            (some (fmtDate y m d)) (some (fmtTime hh mi)) page.rows)

/-- `scrape_meeting_metadata(mid, cid)`: `None` on a non-200 response, an
error record on any exception (from the fetch or from parsing), otherwise
the full record.  The surrounding `try`/`except` makes the function total
— it never raises to its caller. -/
def scrape_meeting_metadata (env : Fetch) (mid : Nat) (cid : String) :
    Option ScrapeRec :=
  match env mid cid with
  | .exc msg => some (.err (toString mid) msg)
  | .resp status page =>
    if status ≠ 200 then none
    else
      match parsePage mid page with
      | .error msg => some (.err (toString mid) msg)
      | .ok r => some (.full r)

/-- A line of an existing output file as read back by `load_seen_ids`:
either a well-formed record or a line on which `json.loads` (or the
`web_meeting_code` lookup) fails and is skipped by the bare `except`. -/
inductive OutLine where
  | parsed (r : ScrapeRec)
  | malformed (raw : String)
deriving DecidableEq, Repr

/-- `web_meeting_code` extracted from a line, when the line parses. -/
def lineWmc : OutLine → Option String
  | .parsed r => some (wmcOf r)
  | .malformed _ => none

/-- `load_seen_ids(output_file)`: the `web_meeting_code` values of all
parseable lines of the output file (membership in the returned `set` is
what the batch loop uses). -/
def load_seen_ids (lines : List OutLine) : List String :=
  lines.filterMap lineWmc

/-- `run_scrape_batch(mids, cid, output_path)`: load the seen set once,
then for each id in order skip it when seen, otherwise scrape it and
append one JSON line when a record (full or error) was returned.  The
file is opened in append mode, so the result is the old lines followed by
the new ones. -/
def run_scrape_batch (env : Fetch) (mids : List Nat) (cid : String)
    (lines : List OutLine) : List OutLine :=
  let seen_ids := load_seen_ids lines
  lines ++ mids.filterMap fun mid =>
    if toString mid ∈ seen_ids then none
    else
      match scrape_meeting_metadata env mid cid with
      | none => none
      | some data => some (.parsed data)

/-- The lines one batch run appends (the loop body of `run_scrape_batch`
made nameable: `run_scrape_batch env mids cid lines` equals
`lines ++ batchTail env mids cid lines` definitionally). -/
def batchTail (env : Fetch) (mids : List Nat) (cid : String)
    (lines : List OutLine) : List OutLine :=
  mids.filterMap fun mid =>
    if toString mid ∈ load_seen_ids lines then none
    else
      match scrape_meeting_metadata env mid cid with
      | none => none
      | some data => some (.parsed data)

/-! ## Agenda chunk generation cell (`0B_Scraping_KCC_Meetings.ipynb`,
the `cleaned_chunks` cell writing `data/chunks/minutes/chunks.jsonl`) -/

/-- A JSON value as it appears in a chunk record: a string, a number, or
`null` (for `meeting.get("meeting_date")` / `.get("committee_name")` of a
record that lacks the key). -/
inductive JVal where
  | s (v : String)
  | n (v : Nat)
  | null
deriving DecidableEq, Repr

/-- An agenda item dictionary as read back from `meetings_metadata.jsonl`
(`item.get(key, "")` semantics: missing keys read as `""`). -/
structure RawItem where
  item_number : String
  item_title : String
  item_text : String
deriving DecidableEq, Repr

/-- A meeting dictionary as read back from `meetings_metadata.jsonl`
(`meeting.get("web_meeting_code", "")`, `meeting.get("meeting_date")`,
`meeting.get("committee_name")`, `meeting.get("agenda_items", [])`). -/
structure RawMeeting where
  web_meeting_code : String
  meeting_date : Option String
  committee_name : Option String
  agenda_items : List RawItem
deriving DecidableEq, Repr

/-- `JVal` of an optional string field (`None` serialises to `null`). -/
def optJ : Option String → JVal
  | none => JVal.null
  | some v => JVal.s v

/-- `re.sub(r"[^\w]+", "", s)`: remove every non-word character. -/
def removeNonWord (s : String) : String :=
  (s.toList.filter isWordChar).asString

/-- The keyword list the cell defines under the comment
`Keywords to filter out low-value items` — note that the cell never uses
it: no agenda item is filtered out. -/
def low_signal_keywords : List String :=
  ["apologies", "substitutes", "panel business",
   "motion to exclude", "minutes of the meeting",
   "future work programme", "webcast", "any other business"]

/-- The chunk dictionary built for agenda item `item` at position `idx`
of meeting `m`, with the key order of the Python dict literal:
`base_id` is the stripped item number, or `f"item{idx}"` when that is
empty; `clean_id` keeps only word characters of the upper-cased `base_id`,
falling back (Python `or` on the empty string) to
`f"ID{hashlib.md5(item_title.encode()).hexdigest()[:6]}"`;
`chunk_id = f"{meeting_code}_{clean_id}"`. -/
def mkChunk (m : RawMeeting) (idx : Nat) (item : RawItem) :
    List (String × JVal) :=
  let item_number := pyStrip item.item_number
  let item_title := pyStrip item.item_title
  let item_text := pyStrip item.item_text
  let word_count := (pySplitWs item_text).length
  let base_id := if item_number ≠ "" then item_number else "item" ++ toString idx
  let sanitized := removeNonWord (pyUpper base_id)
  let clean_id :=
    if sanitized = "" then "ID" ++ (md5hex item_title).take 6 else sanitized
  let chunk_id := m.web_meeting_code ++ "_" ++ clean_id
  [("chunk_id", JVal.s chunk_id),
   ("meeting_code", JVal.s m.web_meeting_code),
   ("meeting_date", optJ m.meeting_date),
   ("committee_name", optJ m.committee_name),
   ("item_number", JVal.s item_number),
   ("item_title", JVal.s item_title),
   ("text", JVal.s item_text),
   ("word_count", JVal.n word_count)]

/-- The `cleaned_chunks` list: every agenda item of every meeting yields
exactly one chunk record (the cell has no filtering branch). -/
def cleaned_chunks (meetings : List RawMeeting) : List (List (String × JVal)) :=
  meetings.flatMap fun m =>
    (m.agenda_items.enum.map fun (idx, item) => mkChunk m idx item)

/-- Key list of a chunk record. -/
def chunkKeys (rec : List (String × JVal)) : List String :=
  rec.map Prod.fst

/-- Value of a key in a chunk record. -/
def chunkGet (rec : List (String × JVal)) (k : String) : Option JVal :=
  (rec.find? (fun p => p.fst = k)).map Prod.snd

/-! ## `test.ipynb`: the events-registry meeting-metadata builder -/

/-- `slugify(text)` of `test.ipynb`:
`re.sub(r"[^a-z0-9]+", "_", text.lower()).strip("_")` — runs of
characters outside `[a-z0-9]` collapse to a single underscore, then
leading/trailing underscores are stripped. -/
def slugChar (c : Char) : Bool :=
  ('a' ≤ c && c ≤ 'z') || ('0' ≤ c && c ≤ '9')

/-- Collapse maximal runs of non-`[a-z0-9]` characters into one `_`: the
flag records whether the previous character was part of such a run (so
the run only contributes its first underscore). -/
def collapseAux : Bool → List Char → List Char
  | _, [] => []
  | inRun, c :: cs =>
    if slugChar c then c :: collapseAux false cs
    else (if inRun then [] else ['_']) ++ collapseAux true cs

/-- `slugify` of `test.ipynb`. -/
def slugify (text : String) : String :=
  stripUnderscore (collapseAux false (pyLower text).toList).asString

/-- `committee_id = f"kent_cc__{slugify(committee_name)}"`. -/
def committeeIdOf (committee_name : String) : String :=
  "kent_cc__" ++ slugify committee_name

/-- `meeting_id = f"{date_str}_{committee_id}"` of `test.ipynb`. -/
def meetingIdOf (committee_name date_str : String) : String :=
  date_str ++ "_" ++ committeeIdOf committee_name

/-- The fresh metadata record `test.ipynb` creates for a meeting folder,
with the key order of the Python dict literal. -/
def newMeetingRecord (committee_name date_str folder_path : String) :
    List (String × JVal) :=
  [("meeting_id", JVal.s (meetingIdOf committee_name date_str)),
   ("committee_id", JVal.s (committeeIdOf committee_name)),
   ("meeting_date", JVal.s date_str),
   ("folder_path", JVal.s folder_path)]

/-! ## News scraper draft (`0Z_Scraping_KentOnline_news_draft.ipynb`) -/

/-- Base URL constant of the news scraper. -/
def NEWS_BASE_URL : String := "https://www.kentonline.co.uk"

/-- Metadata the JSON-LD block of one article page yields (all `None` /
empty when the block is absent or unparseable). -/
structure NewsMeta where
  title : Option String
  date_published : Option String
  author : Option String
  tags : List String
deriving DecidableEq, Repr

/-- One article dictionary, fields in the insertion order of the Python
dict literal. -/
structure NewsArticle where
  title : Option String
  author : Option String
  date : Option String
  tags : List String
  url : String
  article_text : String
deriving DecidableEq, Repr

/-- The article-page environment: what fetching and parsing one URL
yields (JSON-LD metadata and the joined paragraph text). -/
def NewsEnv : Type := String → NewsMeta × String

/-- The link-collection loop of the news scraper:

```
for a in soup.select("a[href*='/kent/news/']"):
    href = a.get("href")
    if href and href.startswith("/kent/news/") and href not in article_links:
        article_links.append(BASE_URL + href)
```

Note the membership test compares the relative `href` against a list of
absolute URLs, so it never filters anything. -/
def collectArticleLinks (hrefs : List String) : List String :=
  hrefs.foldl
    (fun article_links href =>
      if !href.toList.isEmpty && ("/kent/news/").toList.isPrefixOf href.toList &&
          !(article_links.contains href) then
        article_links ++ [NEWS_BASE_URL ++ href]
      else article_links)
    []

/-- `article_links = article_links[:30]` after collection. -/
def articleLinks (hrefs : List String) : List String :=
  (collectArticleLinks hrefs).take 30

/-- Fetch one article and build its dictionary (`url` is the full link
the loop variable holds). -/
def fetchArticle (env : NewsEnv) (url : String) : NewsArticle :=
  let (meta, text) := env url
  { title := meta.title
    author := meta.author
    date := meta.date_published
    tags := meta.tags
    url := url
    article_text := text }

/-- The per-run fetch loop producing `articles_data`. -/
def articlesData (env : NewsEnv) (hrefs : List String) : List NewsArticle :=
  (articleLinks hrefs).map (fetchArticle env)

/-- The dedup-and-save step:

```
existing_urls = {article["url"] for article in existing_articles}
new_articles = [a for a in articles_data if a["url"] not in existing_urls]
if new_articles:
    all_articles = existing_articles + new_articles
    ... json.dump(all_articles, f, ...)
```

`some contents` models a rewrite of the store file with `contents`;
`none` models the guard being false, in which case the file is not
touched at all. -/
def newsSave (existing_articles articles_data : List NewsArticle) :
    Option (List NewsArticle) :=
  let existing_urls := existing_articles.map (fun a => a.url)
  let new_articles :=
    articles_data.filter (fun a => !(existing_urls.contains a.url))
  if new_articles.isEmpty then none
  else some (existing_articles ++ new_articles)

/-- Store contents after one full run (unchanged when nothing was
written). -/
def newsRun (env : NewsEnv) (hrefs : List String)
    (existing_articles : List NewsArticle) : List NewsArticle :=
  (newsSave existing_articles (articlesData env hrefs)).getD existing_articles

/-! ## Prompt template library (`prompts/mom_summarisation_v2.prompt`)

The file contains three templates: the general minutes summarisation
template, the planning-committee structured-extraction template, and the
full-council structured-extraction template.  Their text is embedded
verbatim (braces written with `\x7b`/`\x7d` escapes). -/

/-- The transcript substitution placeholder. -/
def transcriptPlaceholder : String := "\x7b\x7bTRANSCRIPT\x7d\x7d"

/-- Join a list of lines with newlines (how the line lists below relate
to the template file text). -/
def joinLines : List String → String
  | [] => ""
  | [l] => l
  | l :: ls => l ++ "\n" ++ joinLines ls

/-- Lines of the generalMinutes template section of `src/prompts/mom_summarisation_v2.prompt`, verbatim. -/
def generalMinutesTemplateLines : List String :=
  ["You are a highly capable assistant trained to parse and summarise UK local council meeting minutes.",
   "",
   "Your task is to generate a clear, engaging summary of what was discussed and decided — without ceremony, bureaucracy, or filler.",
   "",
   "Speak plainly. Do not include attendance lists, apologies, ceremonial tributes, or expressions of thanks.",
   "",
   "Focus only on motions, debates, and decisions that reflect the Council’s priorities, conflicts, and actions. Be specific about what each motion aimed to change or fund, who proposed it, and what the outcome was.",
   "",
   "Translate vague or bureaucratic language into terms a smart, curious resident would understand.",
   "",
   "Structure:",
   "- Use **short, direct paragraphs** — not a wall of text.",
   "- **Bullet point only the most significant motions or decisions.** Each bullet should cover:",
   "  - What the motion was really about",
   "  - Whether it passed or failed",
   "  - And (if relevant) what the public impact would be",
   "",
   "Avoid repeating phrasing like “Council voted to approve…” — vary the language. Your tone should be concise, informative, and human. Avoid generic phrases like “debate ensued” or “members noted the report.”",
   "",
   "**The entire summary must fit within 300 words.**",
   "",
   "**Format the output in Markdown. Use bold text and headings as appropriate. Do NOT use emojis.**",
   "",
   "Base your summary only on the content provided below.",
   "",
   "---",
   "",
   "Meeting Transcript:",
   "\x7b\x7bTRANSCRIPT\x7d\x7d",
   "```",
   ""]

/-- Full text of the generalMinutes template. -/
def generalMinutesTemplate : String :=
  joinLines generalMinutesTemplateLines

/-- Lines of the planningCommittee template section of `src/prompts/mom_summarisation_v2.prompt`, verbatim. -/
def planningCommitteeTemplateLines : List String :=
  ["You are a highly capable assistant trained to extract structured data from UK local government Planning Committee meeting minutes.",
   "",
   "Your task is to analyse the full meeting text and return a structured JSON object capturing key planning decisions, attendance, and summaries.",
   "",
   "Focus on:",
   "- All planning applications discussed (who proposed/seconded, outcome, grounds for decision)",
   "- Voting results (totals and individual Cllr names, if recorded)",
   "- Which party proposed the motion (if stated)",
   "- Attendance (present, absent, virtual)",
   "- Civil servants present (name and position)",
   "- Application codes (e.g. 24/01150/FULL) and internal IDs (e.g. PLA152/24)",
   "- A clear summary of the debate and planning grounds used",
   "- A plain English summary of the full meeting",
   "- Keywords (e.g. \"affordable housing\", \"solar farm\", \"density\", \"biodiversity\")",
   "",
   "Return the output in this schema:",
   "",
   "```json",
   "\x7b",
   "  \"meeting_id\": \"2025-04-30_PC\",",
   "  \"committee\": \"Planning Committee\",",
   "  \"meeting_date\": \"2025-04-30\",",
   "  \"location\": \"Council Chamber, Royal Tunbridge Wells, Kent TN1 1RS\",",
   "  \"chair\": \"Cllr Hugh Patterson\",",
   "  \"attendance\": \x7b",
   "    \"present\": [...],",
   "    \"absent\": [...],",
   "    \"virtual\": [...]",
   "  \x7d,",
   "  \"civil_servants\": [",
   "    \x7b \"name\": \"...\", \"position\": \"...\" \x7d",
   "  ],",
   "  \"motions\": [",
   "    \x7b",
   "      \"motion_id\": \"2025-04-30-PC-01\",",
   "      \"application_id\": \"24/01150/FULL\",",
   "      \"application_code\": \"PLA152/24\",",
   "      \"title\": \"Planning Application 24/01150/FULL - Phillips House & Eynsham House, Crescent Road\",",
   "      \"proposer\": \"Cllr Britcher-Allan\",",
   "      \"seconder\": \"Cllr Osborne\",",
   "      \"text\": \"Refuse planning application 24/01150/FULL against officer recommendation.\",",
   "      \"votes\": \x7b",
   "        \"for\": null,",
   "        \"against\": null,",
   "        \"abstain\": null",
   "      \x7d,",
   "      \"voters\": \x7b",
   "        \"for\": [],",
   "        \"against\": [],",
   "        \"abstain\": []",
   "      \x7d,",
   "      \"outcome\": \"Carried\",",
   "      \"decision_type\": \"vote\",",
   "      \"status\": \"voted\",",
   "      \"debate_summary\": \"...\"",
   "    \x7d",
   "  ],",
   "  \"resolutions\": [",
   "    \"Planning application PLA152/24 refused for underdevelopment, lack of density, and insufficient affordable housing.\"",
   "  ],",
   "  \"glossary_refs\": [],",
   "  \"keywords\": [\"planning\", \"affordable housing\", \"solar farm\", \"biodiversity\", \"Primark signage\"],",
   "  \"summary\": \"...\"",
   "\x7d",
   "```",
   "",
   "Rules:",
   "- Omit `application_code` if not explicitly stated.",
   "- If `votes` or `voters` are not recorded, set values to null or empty arrays as shown.",
   "- Use `decision_type` to capture if a motion was voted on, approved by consensus, or delegated.",
   "- Use `status` to reflect if the motion was \"voted\", \"withdrawn\", or \"pending\".",
   "- Do not invent details. Only include information that is clearly stated or strongly implied from the text."]

/-- Full text of the planningCommittee template. -/
def planningCommitteeTemplate : String :=
  joinLines planningCommitteeTemplateLines

/-- Lines of the fullCouncil template section of `src/prompts/mom_summarisation_v2.prompt`, verbatim. -/
def fullCouncilTemplateLines : List String :=
  ["You are a highly capable assistant trained to parse and summarise UK local council meeting minutes.",
   "",
   "Your task is to analyse the full meeting text and return a single structured JSON object that helps councillors quickly understand what happened.",
   "",
   "Focus on:",
   "- All formal motions (who proposed/seconded, full text, outcome)",
   "- Voting results (totals and individual names if recorded)",
   "- Which party proposed the motion (if available)",
   "- Attendance (present, absent, virtual)",
   "- Civil servants present (name and position, if listed separately from councillors)",
   "- A clear and concise summary in plain non-bureaucratic rhetorical English",
   "- Keywords capturing 5-10 main themes (e.g. “budget”, “council tax”, “environment”)",
   "",
   "",
   "This schema below is illustrative of format only. Do not invent data. Only include what is explicitly stated or clearly implied in the transcript.",
   "Return the output in this schema:",
   "",
   "",
   "```",
   "\x7b",
   "  \"meeting_id\": \"2025-03-13_full_council\",",
   "  \"committee\": \"Full Council\",",
   "  \"meeting_date\": \"2025-03-13\",",
   "  \"location\": \"County Hall, Maidstone\",",
   "  \"chair\": \"Mr B J Sweetland\",",
   "  \"attendance\": \x7b",
   "    \"present\": [\"Mr B J Sweetland\", \"Ms A Meade\", \"Mr G Cooke\", \"Ms K Grehan\"],",
   "    \"absent\": [\"Mr G Cooke\"],",
   "    \"virtual\": [\"Ms K Grehan\"]",
   "  \x7d,",
   "  \"civil_servants\": [",
   "    \x7b \"name\": \"\", \"position\": \"\" \x7d",
   "  ],",
   "  \"motions\": [",
   "    \x7b",
   "      \"motion_id\": \"2025-03-13-FC-01\",",
   "      \"title\": \"Council Tax freeze for 2025/26\",",
   "      \"proposer\": \"Ms A Meade\",",
   "      \"proposer_party\": \"Labour\",",
   "      \"seconder\": \"Mr J Hook\",",
   "      \"seconder_party\": \"Liberal Democrat\",",
   "      \"text\": \"This Council resolves to freeze Council Tax for the 2025/26 fiscal year, redirecting surplus reserves...\",",
   "      \"votes\": \x7b",
   "        \"for\": 31,",
   "        \"against\": 43,",
   "        \"abstain\": 2",
   "      \x7d,",
   "      \"voters\": \x7b",
   "        \"for\": [\"Ms A Meade\", \"Mr J Hook\"],",
   "        \"against\": [\"Mr B J Sweetland\", \"Mr D Brazier\"],",
   "        \"abstain\": [\"Ms K Constantine\"]",
   "      \x7d,",
   "      \"outcome\": \"Failed\",",
   "      \"decision_type\": \"vote\",",
   "      \"status\": \"voted\",",
   "      \"debate_summary\": \"\"",
   "    \x7d",
   "  ],",
   "  \"resolutions\": [",
   "    \"The Council approved the Armed Forces Covenant Annual Report.\",",
   "    \"The Council adopted the revised Terms of Reference for the Governance & Audit Committee.\"",
   "  ],",
   "  \"glossary_refs\": [],",
   "  \"keywords\": [],",
   "  \"summary\": \"\"",
   "\x7d",
   "",
   "---",
   "",
   "Meeting Transcript:",
   "\x7b\x7bTRANSCRIPT\x7d\x7d",
   "```",
   "",
   "Rules:",
   "- Only include `proposer_party`, `seconder_party`, `votes`, `voters`, or `debate_summary` if clearly stated. Omit entirely if not known.",
   "- Use `voters` to list named councillors who voted for, against, or abstained — only if names are explicitly given.",
   "- Use `decision_type` to indicate how the motion was resolved (`\"vote\"`, `\"delegated\"`, `\"consensus\"`).",
   "- Use `status` to reflect the process state (`\"voted\"`, `\"withdrawn\"`, `\"pending\"`).",
   "- Use motion_id format: `YYYY-MM-DD-<committee_code>-NN` (e.g. FC for Full Council)",
   "- Include `civil_servants` if mentioned separately from councillors.",
   "- Always include `votes` and `voters` fields with keys, even if null/empty.",
   "- Do not invent details. Include only what is explicitly stated or reliably implied.",
   "- Do not include made-up people or summaries. Leave fields blank or empty lists if content is missing or uncertain."]

/-- Full text of the fullCouncil template. -/
def fullCouncilTemplate : String :=
  joinLines fullCouncilTemplateLines

/-! ## Specification-side definition for the status claim, and concrete
fixtures used by witnesses and counterexamples -/

/-- Status derivation in the words of the specification: the lower-cased
first (leftmost) keyword among CANCELLED/WITHDRAWN/POSTPONED/MOVED/NEW
found in the page title, matched case-insensitively as a whole word, and
`"scheduled"` when none occurs.  Stated independently of the scan in
`detectStatus`: the leftmost matching position is selected by searching
`List.range` in order. -/
def statusOfTitleSpec (title : String) : String :=
  let s := (pyUpper title).toList
  match (List.range s.length).find?
      (fun i => statusKeywords.any (fun k => keywordAt s i k.toList)) with
  | none => "scheduled"
  | some i =>
    match statusKeywords.find? (fun k => keywordAt s i k.toList) with
    | none => "scheduled"
    | some k => pyLower k

/-- A page with no agenda rows and no parseable heading. -/
def emptyPage : Page :=
  { titleTag := some ("Agenda frontpage"), headings := [], rows := [] }

/-- A typical successfully parsed meeting page. -/
def samplePage : Page :=
  { titleTag := some (" Agenda for Cabinet on Thursday, 30th January, 2025 10.00 am ")
    headings := ["Welcome", "Cabinet Committee - Thursday, 30th January, 2025 10.00 am"]
    rows :=
      [{ cells :=
          [{ isNumberCell := true, text := " 1. ", paragraphs := [], hrefs := [] },
           { isNumberCell := false, text := ""
             paragraphs := ["Apologies", "None received"]
             hrefs := ["/documents/a.PDF", "/img/x.png"] }] },
       { cells := [{ isNumberCell := false, text := "x", paragraphs := [], hrefs := [] }] }] }

/-- A page whose title carries a status keyword. -/
def cancelledPage : Page :=
  { titleTag := some ("Extraordinary Meeting CANCELLED - agenda"), headings := [], rows := [] }

/-- The record `parsePage` produces for `cancelledPage`. -/
def cancelledRecord : MeetingRecord :=
  { web_meeting_code := "9502"
    meeting_title := ""
    meeting_status := "cancelled"
    committee_name := none
    meeting_date := none
    meeting_time := none
    agenda_items := [] }

/-- The record `parsePage` produces for `emptyPage` (used where a
concrete full record is needed). -/
def sampleMeetingRecord : MeetingRecord :=
  { web_meeting_code := "8042"
    meeting_title := ""
    meeting_status := "scheduled"
    committee_name := none
    meeting_date := none
    meeting_time := none
    agenda_items := [] }

/-- An environment in which every fetch succeeds with `samplePage`. -/
def envOk : Fetch := fun _ _ => .resp 200 samplePage

/-- An environment in which every fetch returns a 404 response. -/
def env404 : Fetch := fun _ _ => .resp 404 emptyPage

/-- An environment in which every fetch raises (e.g. a timeout). -/
def envExc : Fetch := fun _ _ => .exc "timeout"

/-- An environment in which every fetch succeeds with `cancelledPage`. -/
def envCancelled : Fetch := fun _ _ => .resp 200 cancelledPage

/-- A meeting as read back by the chunk cell whose single agenda item has
a title but no body text. -/
def sampleRawMeeting : RawMeeting :=
  { web_meeting_code := "9001"
    meeting_date := some ("2024-10-11")
    committee_name := some ("Cabinet")
    agenda_items :=
      [{ item_number := "1.", item_title := "Apologies for Absence", item_text := "" }] }

/-- An agenda item with an absent (empty) item number. -/
def noNumberItem : RawItem :=
  { item_number := "", item_title := "Budget", item_text := "" }

/-- A meeting whose single agenda item has an absent item number. -/
def noNumberMeeting : RawMeeting :=
  { web_meeting_code := "9001"
    meeting_date := none
    committee_name := none
    agenda_items := [noNumberItem] }

/-- A trivial article-page environment for the news-scraper claims. -/
def sampleNewsEnv : NewsEnv :=
  fun _ => ({ title := none, date_published := none, author := none, tags := [] }, "body")

/-- A politics-section page that lists the same article link twice (an
article linked from both its image and its headline). -/
def dupHrefs : List String := ["/kent/news/a1", "/kent/news/a1"]

/-- The article built for the duplicated link. -/
def articleA1 : NewsArticle :=
  fetchArticle sampleNewsEnv ("https://www.kentonline.co.uk/kent/news/a1")

/-! ## Shared lemmas -/

/-- A record returned by `parsePage` carries `str(mid)` as its
`web_meeting_code`. -/
theorem parsePage_wmc (mid : Nat) (page : Page) (r : MeetingRecord)
    (h : parsePage mid page = Except.ok r) : r.web_meeting_code = toString mid := by
  unfold parsePage at h
  split at h
  · exact absurd h (by simp)
  · simp only [] at h
    split at h
    · rw [Except.ok.injEq] at h
      rw [← h]
      rfl
    · split at h
      · exact absurd h (by simp)
      · split at h
        · exact absurd h (by simp)
        · rw [Except.ok.injEq] at h
          rw [← h]
          rfl

/-- Any record returned by `scrape_meeting_metadata` carries `str(mid)`
as its `web_meeting_code`. -/
theorem scrape_wmc (env : Fetch) (mid : Nat) (cid : String) (rec : ScrapeRec)
    (h : scrape_meeting_metadata env mid cid = some rec) :
    wmcOf rec = toString mid := by
  unfold scrape_meeting_metadata at h
  split at h
  · rw [Option.some.injEq] at h
    rw [← h]
    rfl
  · split at h
    · exact absurd h (by simp)
    · split at h
      · rw [Option.some.injEq] at h
        rw [← h]
        rfl
      · rw [Option.some.injEq] at h
        rw [← h]
        simp only [wmcOf]
        exact parsePage_wmc mid _ _ (by assumption)

/-- A parsed line contributes its `web_meeting_code` to the seen set. -/
theorem mem_load_seen_ids (lines : List OutLine) (r : ScrapeRec)
    (h : OutLine.parsed r ∈ lines) : wmcOf r ∈ load_seen_ids lines := by
  unfold load_seen_ids
  exact List.mem_filterMap.2 ⟨OutLine.parsed r, h, rfl⟩

/-- Characterisation of the lines a batch run appends: each comes from an
unseen id in the range whose scrape returned a record. -/
theorem batch_tail_spec (env : Fetch) (mids : List Nat) (cid : String)
    (lines : List OutLine) (l : OutLine)
    (h : l ∈ batchTail env mids cid lines) :
    ∃ mid ∈ mids, toString mid ∉ load_seen_ids lines ∧
      ∃ rec, scrape_meeting_metadata env mid cid = some rec ∧
        l = OutLine.parsed rec ∧ lineWmc l = some (toString mid) := by
  rcases List.mem_filterMap.1 h with ⟨mid, hmem, hf⟩
  refine ⟨mid, hmem, ?_⟩
  by_cases hseen : toString mid ∈ load_seen_ids lines
  · rw [if_pos hseen] at hf
    exact absurd hf (by simp)
  · rw [if_neg hseen] at hf
    refine ⟨hseen, ?_⟩
    rcases hs : scrape_meeting_metadata env mid cid with _ | rec
    · rw [hs] at hf
      exact absurd hf (by simp)
    · rw [hs] at hf
      rw [Option.some.injEq] at hf
      refine ⟨rec, rfl, hf.symm, ?_⟩
      rw [← hf]
      simp only [lineWmc]
      rw [scrape_wmc env mid cid rec hs]

/-! ## Claim C1 -/

/-- Claim C1 as stated is false: on a non-200 response
`scrape_meeting_metadata` returns `None` — not an error record with keys
`web_meeting_code` and `error` — and `run_scrape_batch` consequently
records nothing for the failed id (here id 8042 against an environment
answering 404). -/
theorem claim1_counterexample :
    scrape_meeting_metadata env404 8042 "144" = none ∧
    run_scrape_batch env404 [8042] "144" [] = [] := by
  exact ⟨rfl, rfl⟩

/-- Claim C1, amended: `scrape_meeting_metadata` is total (never raises);
it returns the error record `{web_meeting_code: str(mid), error: str(e)}`
— whose keys are exactly `web_meeting_code` and `error` — when the fetch
or the parse raises, `None` (and hence no output record) on a non-200
response, and otherwise a full record or an error record; and
`run_scrape_batch` only appends to the file, recording each unseen id
whose fetch raised as one error line rather than aborting the batch. -/
theorem scrape_failure_contract (env : Fetch) (mid : Nat) (cid : String)
    (mids : List Nat) (lines : List OutLine) :
    (∀ msg, env mid cid = HttpResult.exc msg →
      scrape_meeting_metadata env mid cid =
        some (ScrapeRec.err (toString mid) msg)) ∧
    (∀ status page, env mid cid = HttpResult.resp status page → status ≠ 200 →
      scrape_meeting_metadata env mid cid = none) ∧
    (∀ page, env mid cid = HttpResult.resp 200 page →
      (∃ r, scrape_meeting_metadata env mid cid = some (ScrapeRec.full r)) ∨
      (∃ msg, scrape_meeting_metadata env mid cid =
        some (ScrapeRec.err (toString mid) msg))) ∧
    (∀ c m, recKeys (ScrapeRec.err c m) = ["web_meeting_code", "error"]) ∧
    (∃ tail, run_scrape_batch env mids cid lines = lines ++ tail ∧
      ∀ mid' msg, mid' ∈ mids → env mid' cid = HttpResult.exc msg →
        toString mid' ∉ load_seen_ids lines →
        OutLine.parsed (ScrapeRec.err (toString mid') msg) ∈ tail) := by
  refine ⟨?_, ?_, ?_, fun c m => rfl, ?_⟩
  · intro msg h
    unfold scrape_meeting_metadata
    rw [h]
  · intro status page h hne
    unfold scrape_meeting_metadata
    rw [h]
    simp [hne]
  · intro page h
    unfold scrape_meeting_metadata
    rw [h]
    simp only [ne_eq, not_true_eq_false, if_false]
    rcases hp : parsePage mid page with msg | r
    · exact Or.inr ⟨msg, by simp⟩
    · exact Or.inl ⟨r, by simp⟩
  · refine ⟨_, rfl, ?_⟩
    intro mid' msg hmem hexc hseen
    refine List.mem_filterMap.2 ⟨mid', hmem, ?_⟩
    rw [if_neg hseen]
    unfold scrape_meeting_metadata
    rw [hexc]

/-- Witness for the amended claim C1, exercising the exception branch,
the non-200 branch and the batch-recording clause at concrete inputs. -/
theorem scrape_failure_contract_witness :
    envExc 8042 "144" = HttpResult.exc "timeout" ∧
    scrape_meeting_metadata envExc 8042 "144" =
      some (ScrapeRec.err ("8042") ("timeout")) ∧
    env404 8042 "144" = HttpResult.resp 404 emptyPage ∧ (404 : Nat) ≠ 200 ∧
    scrape_meeting_metadata env404 8042 "144" = none := by
  refine ⟨rfl, ?_, rfl, by decide, ?_⟩
  · exact (scrape_failure_contract envExc 8042 "144" [] []).1 ("timeout") rfl
  · exact (scrape_failure_contract env404 8042 "144" [] []).2.1 404 emptyPage rfl
      (by decide)

/-! ## Claim C2 -/

/-- Claim C2: re-running `run_scrape_batch` is idempotent for
already-recorded meetings.  When some line of the output file already
carries a record with a given `web_meeting_code`, the run only appends
lines (never overwrites), none of the appended lines carries that code,
and the number of records with that code is unchanged — because the seen
set is loaded from the file first and seen ids are skipped. -/
theorem run_scrape_batch_resumable (env : Fetch) (mids : List Nat)
    (cid : String) (lines : List OutLine) (r : ScrapeRec)
    (hmem : OutLine.parsed r ∈ lines) :
    run_scrape_batch env mids cid lines = lines ++ batchTail env mids cid lines ∧
    (∀ l ∈ batchTail env mids cid lines, lineWmc l ≠ some (wmcOf r)) ∧
    List.countP (fun l => decide (lineWmc l = some (wmcOf r)))
        (run_scrape_batch env mids cid lines) =
      List.countP (fun l => decide (lineWmc l = some (wmcOf r))) lines := by
  have htail : ∀ l ∈ batchTail env mids cid lines, lineWmc l ≠ some (wmcOf r) := by
    intro l hl
    rcases batch_tail_spec env mids cid lines l hl with
      ⟨mid, _, hseen, rec, _, _, hwmc⟩
    rw [hwmc]
    intro hcontra
    apply hseen
    rw [Option.some.injEq] at hcontra
    rw [hcontra]
    exact mem_load_seen_ids lines r hmem
  refine ⟨rfl, htail, ?_⟩
  have heq : run_scrape_batch env mids cid lines =
      lines ++ batchTail env mids cid lines := rfl
  rw [heq, List.countP_append]
  have hzero : List.countP (fun l => decide (lineWmc l = some (wmcOf r)))
      (batchTail env mids cid lines) = 0 := by
    rw [List.countP_eq_zero]
    intro l hl
    simpa using htail l hl
  rw [hzero]
  exact Nat.add_zero _

/-- Witness for claim C2: an output file already holding a record with
`web_meeting_code` "8042"; re-running over a range containing 8042
appends no second record for it. -/
theorem run_scrape_batch_resumable_witness :
    OutLine.parsed (ScrapeRec.err ("8042") ("boom")) ∈
      [OutLine.parsed (ScrapeRec.err ("8042") ("boom"))] ∧
    List.countP
        (fun l => decide (lineWmc l =
          some (wmcOf (ScrapeRec.err ("8042") ("boom")))))
        (run_scrape_batch envOk [8042, 8043] ("144")
          [OutLine.parsed (ScrapeRec.err ("8042") ("boom"))]) =
      List.countP
        (fun l => decide (lineWmc l =
          some (wmcOf (ScrapeRec.err ("8042") ("boom")))))
        [OutLine.parsed (ScrapeRec.err ("8042") ("boom"))] := by
  refine ⟨by decide, ?_⟩
  exact (run_scrape_batch_resumable envOk [8042, 8043] ("144")
    [OutLine.parsed (ScrapeRec.err ("8042") ("boom"))]
    (ScrapeRec.err ("8042") ("boom")) (by decide)).2.2

/-! ## Claim C9 -/

/-- Claim C9: an id whose previous attempt raised a parse exception left
an error record in the file, so `load_seen_ids` counts it as seen and a
later run over that id appends nothing (never retries); an id whose fetch
returns a non-200 response yields no record in the run, and an id not yet
seen in the file is fetched again on the next run (its scrape result, if
any, is appended). -/
theorem scrape_retry_semantics (env env' : Fetch) (lines : List OutLine)
    (mid : Nat) (cid : String) :
    (∀ msg, OutLine.parsed (ScrapeRec.err (toString mid) msg) ∈ lines →
      run_scrape_batch env [mid] cid lines = lines) ∧
    ((∃ s p, env mid cid = HttpResult.resp s p ∧ s ≠ 200) →
      run_scrape_batch env [mid] cid lines = lines) ∧
    (toString mid ∉ load_seen_ids lines →
      run_scrape_batch env' [mid] cid lines =
        lines ++ ((scrape_meeting_metadata env' mid cid).map OutLine.parsed).toList) := by
  refine ⟨?_, ?_, ?_⟩
  · intro msg hmem
    have hseen : toString mid ∈ load_seen_ids lines :=
      mem_load_seen_ids lines (ScrapeRec.err (toString mid) msg) hmem
    show lines ++ _ = lines
    rw [List.filterMap_cons]
    rw [if_pos hseen]
    rw [List.filterMap_nil, List.append_nil]
  · intro ⟨s, p, henv, hs⟩
    have hnone : scrape_meeting_metadata env mid cid = none := by
      unfold scrape_meeting_metadata
      rw [henv]
      simp [hs]
    show lines ++ _ = lines
    rw [List.filterMap_cons]
    by_cases hseen : toString mid ∈ load_seen_ids lines
    · rw [if_pos hseen, List.filterMap_nil, List.append_nil]
    · rw [if_neg hseen, hnone, List.filterMap_nil, List.append_nil]
  · intro hseen
    show lines ++ _ = _
    rw [List.filterMap_cons]
    rw [if_neg hseen]
    rcases hs : scrape_meeting_metadata env' mid cid with _ | rec
    · rw [List.filterMap_nil]
      rfl
    · rw [List.filterMap_nil]
      rfl

/-- Witness for claim C9: a file holding the error record for id 8042 is
not retried; a 404 run appends nothing; a fresh file fetches the id and
appends its record. -/
theorem scrape_retry_semantics_witness :
    run_scrape_batch env404 [8042] ("144")
        [OutLine.parsed (ScrapeRec.err ("8042") ("boom"))] =
      [OutLine.parsed (ScrapeRec.err ("8042") ("boom"))] ∧
    run_scrape_batch env404 [8042] ("144") [] = [] ∧
    run_scrape_batch envOk [8042] ("144") [] =
      ((scrape_meeting_metadata envOk 8042 ("144")).map OutLine.parsed).toList := by
  refine ⟨?_, ?_, ?_⟩
  · exact (scrape_retry_semantics env404 envOk _ 8042 ("144")).1 ("boom") (by decide)
  · exact (scrape_retry_semantics env404 envOk [] 8042 ("144")).2.1
      ⟨404, emptyPage, rfl, by decide⟩
  · have h := (scrape_retry_semantics env404 envOk [] 8042 ("144")).2.2
      (by simp [load_seen_ids])
    simpa using h

/-! ## Claim C6 -/

/-- When no keyword matches at a position, the `any` test there is
false. -/
theorem find?_none_any_false (s : List Char) (i : Nat)
    (hk : List.find? (fun k => keywordAt s i k.toList) statusKeywords = none) :
    statusKeywords.any (fun k => keywordAt s i k.toList) = false := by
  rw [List.any_eq_false]
  intro x hx
  have h1 := List.find?_eq_none.1 hk x hx
  simpa using h1

/-- When a keyword matches at a position, the `any` test there is true. -/
theorem find?_some_any_true (s : List Char) (i : Nat) (k : String)
    (hk : List.find? (fun k => keywordAt s i k.toList) statusKeywords = some k) :
    statusKeywords.any (fun k => keywordAt s i k.toList) = true := by
  rw [List.any_eq_true]
  refine ⟨k, List.mem_of_find?_eq_some hk, ?_⟩
  exact @List.find?_some String (fun k => keywordAt s i k.toList) k statusKeywords hk

/-- The position scan of `re.search` computes, over the suffix `s.drop i`,
the first position of `s` at or after `i` where a keyword matches, and
returns the first keyword matching there. -/
theorem reSearchAux_eq (s : List Char) :
    ∀ (l : List Char) (i : Nat), l = s.drop i →
      reSearchAux s i l =
        match (List.range' i l.length).find?
            (fun j => statusKeywords.any (fun k => keywordAt s j k.toList)) with
        | none => none
        | some j => statusKeywords.find? (fun k => keywordAt s j k.toList) := by
  intro l
  induction l with
  | nil => intro i _; rfl
  | cons c rest ih =>
    intro i hdrop
    have hrest : rest = s.drop (i + 1) := by
      rw [← List.drop_drop 1 i s, ← hdrop]
      simp
    show (match statusKeywords.find? (fun k => keywordAt s i k.toList) with
          | some k => some k
          | none => reSearchAux s (i + 1) rest) = _
    rw [List.length_cons, List.range'_succ]
    rcases hk : statusKeywords.find? (fun k => keywordAt s i k.toList) with _ | k
    · rw [hk]
      have hany := find?_none_any_false s i hk
      have hnot : ¬ ((fun j => statusKeywords.any
          (fun k => keywordAt s j k.toList)) i = true) := by
        simp only []
        rw [hany]
        simp
      rw [@List.find?_cons_of_neg Nat
        (fun j => statusKeywords.any (fun k => keywordAt s j k.toList)) i
        (List.range' (i + 1) rest.length) hnot]
      exact ih (i + 1) hrest
    · rw [hk]
      have hany := find?_some_any_true s i k hk
      have hpos : ((fun j => statusKeywords.any
          (fun k => keywordAt s j k.toList)) i) = true := hany
      rw [@List.find?_cons_of_pos Nat
        (fun j => statusKeywords.any (fun k => keywordAt s j k.toList)) i
        (List.range' (i + 1) rest.length) hpos]
      exact hk.symm

/-- A whole-word keyword occurrence needs a position inside the string. -/
theorem keywordAt_lt_length (s : List Char) (i : Nat) (k : String)
    (hk : k ∈ statusKeywords) (h : keywordAt s i k.toList = true) :
    i < s.length := by
  have hkne : k.toList ≠ [] := by fin_cases hk <;> decide
  unfold keywordAt at h
  simp only [Bool.and_eq_true] at h
  have hpre : k.toList.isPrefixOf (s.drop i) = true := h.1.2
  have hlen : k.toList.length ≤ (s.drop i).length :=
    (List.isPrefixOf_iff_prefix.1 hpre).length_le
  rw [List.length_drop] at hlen
  have hpos : 0 < k.toList.length := List.length_pos.2 hkne
  omega

/-- Lower-casing any of the five status keywords never yields
`"scheduled"`. -/
theorem keyword_lower_ne_scheduled (k : String) (hk : k ∈ statusKeywords) :
    pyLower k ≠ "scheduled" := by
  fin_cases hk <;> decide

/-- The scan finds a keyword exactly when some whole-word occurrence
exists. -/
theorem reSearch_none_iff (s : List Char) :
    reSearchKeyword s = none ↔
      ∀ i k, k ∈ statusKeywords → keywordAt s i k.toList = false := by
  unfold reSearchKeyword
  rw [reSearchAux_eq s s 0 (by simp)]
  constructor
  · intro h i k hk
    rcases hr : (List.range' 0 s.length).find?
        (fun j => statusKeywords.any (fun k => keywordAt s j k.toList)) with _ | j
    · by_contra hocc
      rw [Bool.not_eq_false] at hocc
      have hi : i < s.length := keywordAt_lt_length s i k hk hocc
      have hmem : i ∈ List.range' 0 s.length :=
        List.mem_range'_1.2 ⟨Nat.zero_le i, by simpa using hi⟩
      exact List.find?_eq_none.1 hr i hmem (List.any_eq_true.2 ⟨k, hk, hocc⟩)
    · rw [hr] at h
      have h2 : statusKeywords.find? (fun k => keywordAt s j k.toList) = none := h
      have h1 : (fun j => statusKeywords.any (fun k => keywordAt s j k.toList)) j
          = true :=
        @List.find?_some Nat
          (fun j => statusKeywords.any (fun k => keywordAt s j k.toList)) j
          (List.range' 0 s.length) hr
      rcases List.any_eq_true.1 h1 with ⟨x, hx, hpx⟩
      have h3 := List.find?_eq_none.1 h2 x hx
      exact absurd hpx (by simpa using h3)
  · intro hall
    rcases hr : (List.range' 0 s.length).find?
        (fun j => statusKeywords.any (fun k => keywordAt s j k.toList)) with _ | j
    · rfl
    · have h1 : (fun j => statusKeywords.any (fun k => keywordAt s j k.toList)) j
          = true :=
        @List.find?_some Nat
          (fun j => statusKeywords.any (fun k => keywordAt s j k.toList)) j
          (List.range' 0 s.length) hr
      rcases List.any_eq_true.1 h1 with ⟨x, hx, hpx⟩
      exact absurd hpx (by rw [hall j x hx]; simp)

/-- A keyword found by the scan is one of the five status keywords. -/
theorem reSearch_some_mem (s : List Char) (k : String)
    (h : reSearchKeyword s = some k) : k ∈ statusKeywords := by
  unfold reSearchKeyword at h
  rw [reSearchAux_eq s s 0 (by simp)] at h
  rcases hr : (List.range' 0 s.length).find?
      (fun j => statusKeywords.any (fun k => keywordAt s j k.toList)) with _ | j
  · rw [hr] at h
    exact absurd h (by simp)
  · rw [hr] at h
    exact List.mem_of_find?_eq_some h

/-- `detectStatus` answers `"scheduled"` exactly when no keyword occurs
as a whole word in the upper-cased title. -/
theorem detectStatus_scheduled_iff (title : String) :
    detectStatus title = "scheduled" ↔
      ∀ i k, k ∈ statusKeywords →
        keywordAt (pyUpper title).toList i k.toList = false := by
  rw [← reSearch_none_iff]
  unfold detectStatus
  rcases hr : reSearchKeyword (pyUpper title).toList with _ | k
  · simp
  · constructor
    · intro h
      exact absurd h (keyword_lower_ne_scheduled k (reSearch_some_mem _ k hr))
    · intro h
      exact absurd h (by simp)

/-- The code's status detection equals the specification's description:
the lower-cased leftmost whole-word keyword occurrence, or `"scheduled"`. -/
theorem detectStatus_eq_spec (title : String) :
    detectStatus title = statusOfTitleSpec title := by
  unfold detectStatus statusOfTitleSpec reSearchKeyword
  simp only []
  rw [reSearchAux_eq (pyUpper title).toList (pyUpper title).toList 0 (by simp)]
  rw [List.range_eq_range']
  rcases hr : (List.range' 0 (pyUpper title).toList.length).find?
      (fun j => statusKeywords.any
        (fun k => keywordAt (pyUpper title).toList j k.toList)) with _ | j
  · rfl
  · simp only []
    rcases hk : statusKeywords.find?
        (fun k => keywordAt (pyUpper title).toList j k.toList) with _ | k
    · rw [hk]
    · rw [hk]

/-- For a successfully parsed page, the record's status is the detection
applied to the stripped title text. -/
theorem parsePage_status (mid : Nat) (page : Page) (t : String)
    (r : MeetingRecord) (htitle : page.titleTag = some t)
    (hok : parsePage mid page = Except.ok r) :
    r.meeting_status = detectStatus (pyStrip t) := by
  unfold parsePage at hok
  rw [htitle] at hok
  simp only [] at hok
  split at hok
  · rw [Except.ok.injEq] at hok
    rw [← hok]
    rfl
  · split at hok
    · exact absurd hok (by simp)
    · split at hok
      · exact absurd hok (by simp)
      · rw [Except.ok.injEq] at hok
        rw [← hok]
        rfl

/-- Claim C6: for every fetched meeting page that parses successfully,
the returned `meeting_status` is the lower-cased first (leftmost)
whole-word occurrence of CANCELLED/WITHDRAWN/POSTPONED/MOVED/NEW in the
page title matched case-insensitively, and equals `"scheduled"` exactly
when no such keyword occurs in the title. -/
theorem meeting_status_matches_spec (mid : Nat) (page : Page) (t : String)
    (r : MeetingRecord) (htitle : page.titleTag = some t)
    (hok : parsePage mid page = Except.ok r) :
    r.meeting_status = statusOfTitleSpec (pyStrip t) ∧
    (r.meeting_status = "scheduled" ↔
      ∀ i k, k ∈ statusKeywords →
        keywordAt (pyUpper (pyStrip t)).toList i k.toList = false) := by
  have hst := parsePage_status mid page t r htitle hok
  constructor
  · rw [hst]
    exact detectStatus_eq_spec (pyStrip t)
  · rw [hst]
    exact detectStatus_scheduled_iff (pyStrip t)

/-- Witness for claim C6: a page whose title contains the whole word
CANCELLED parses to a record with status `"cancelled"`, matching the
specification-side definition. -/
theorem meeting_status_matches_spec_witness :
    cancelledPage.titleTag = some ("Extraordinary Meeting CANCELLED - agenda") ∧
    parsePage 9502 cancelledPage = Except.ok cancelledRecord ∧
    cancelledRecord.meeting_status =
      statusOfTitleSpec (pyStrip ("Extraordinary Meeting CANCELLED - agenda")) ∧
    cancelledRecord.meeting_status = "cancelled" := by
  have hok : parsePage 9502 cancelledPage = Except.ok cancelledRecord := by rfl
  refine ⟨rfl, hok, ?_, rfl⟩
  exact (meeting_status_matches_spec 9502 cancelledPage
    ("Extraordinary Meeting CANCELLED - agenda") cancelledRecord rfl hok).1

/-! ## Claim C3 -/

/-- Claim C3 fails on the chunk-generation cell: evaluating the cell on a
meeting whose single agenda item is title-only (empty text) shows the
item is still emitted as a chunk, and the emitted record's keys are
exactly the eight keys of the dict literal — there is no `text_hash`
field at all (the cell defines `low_signal_keywords` but never applies
it, and computes no hash). -/
theorem cleaned_chunks_no_text_hash :
    cleaned_chunks [sampleRawMeeting] =
      [mkChunk sampleRawMeeting 0
        { item_number := "1.", item_title := "Apologies for Absence",
          item_text := "" }] ∧
    chunkKeys (mkChunk sampleRawMeeting 0
        { item_number := "1.", item_title := "Apologies for Absence",
          item_text := "" }) =
      ["chunk_id", "meeting_code", "meeting_date", "committee_name",
       "item_number", "item_title", "text", "word_count"] ∧
    "text_hash" ∉ chunkKeys (mkChunk sampleRawMeeting 0
        { item_number := "1.", item_title := "Apologies for Absence",
          item_text := "" }) ∧
    chunkGet (mkChunk sampleRawMeeting 0
        { item_number := "1.", item_title := "Apologies for Absence",
          item_text := "" }) ("text") = some (JVal.s "") := by
  refine ⟨rfl, rfl, by decide, rfl⟩

/-! ## Claim C4 -/

set_option maxRecDepth 8000 in
/-- Claim C4 as stated is false: for an agenda item with an absent
(empty) item number, the generated `chunk_id` is the positional
`"9001_ITEM0"`, not an MD5-derived short id — it differs from the
`"ID" + md5(...)[:6]` fallback whether the hash is taken of the item
title or of the item text. -/
theorem chunk_id_fallback_counterexample :
    chunkGet (mkChunk noNumberMeeting 0 noNumberItem) ("chunk_id") =
      some (JVal.s "9001_ITEM0") ∧
    "9001_ITEM0" ≠ "9001_" ++ ("ID" ++ (md5hex ("Budget")).take 6) ∧
    "9001_ITEM0" ≠ "9001_" ++ ("ID" ++ (md5hex ("")).take 6) := by
  refine ⟨rfl, by decide, by decide⟩

/-- Evaluation of the `chunk_id` field of a chunk record, with the two
branch conditions of the cell left as `if`s. -/
theorem chunkGet_chunk_id (m : RawMeeting) (idx : Nat) (item : RawItem) :
    chunkGet (mkChunk m idx item) ("chunk_id") =
      some (JVal.s (m.web_meeting_code ++ "_" ++
        (if removeNonWord (pyUpper (if pyStrip item.item_number ≠ ""
            then pyStrip item.item_number
            else "item" ++ toString idx)) = ""
         then "ID" ++ (md5hex (pyStrip item.item_title)).take 6
         else removeNonWord (pyUpper (if pyStrip item.item_number ≠ ""
            then pyStrip item.item_number
            else "item" ++ toString idx))))) := rfl

/-- `Nat.digitChar` of a value below ten is one of the ten digit
characters. -/
theorem digitChar_mem (m : Nat) (h : m < 10) :
    Nat.digitChar m ∈
      ['0', '1', '2', '3', '4', '5', '6', '7', '8', '9'] := by
  interval_cases m <;> decide

/-- All characters accumulated by `Nat.toDigitsCore` at base ten are
digit characters. -/
theorem toDigitsCore_digitChars (fuel : Nat) :
    ∀ (n : Nat) (ds : List Char),
      (∀ c ∈ ds, c ∈ ['0', '1', '2', '3', '4', '5', '6', '7', '8', '9']) →
      ∀ c ∈ Nat.toDigitsCore 10 fuel n ds,
        c ∈ ['0', '1', '2', '3', '4', '5', '6', '7', '8', '9'] := by
  induction fuel with
  | zero =>
    intro n ds hds c hc
    unfold Nat.toDigitsCore at hc
    exact hds c hc
  | succ fuel ih =>
    intro n ds hds c hc
    unfold Nat.toDigitsCore at hc
    simp only [] at hc
    split at hc
    · rcases List.mem_cons.1 hc with rfl | hmem
      · exact digitChar_mem _ (Nat.mod_lt _ (by omega))
      · exact hds c hmem
    · refine ih (n / 10) (Nat.digitChar (n % 10) :: ds) ?_ c hc
      intro x hx
      rcases List.mem_cons.1 hx with rfl | hmem
      · exact digitChar_mem _ (Nat.mod_lt _ (by omega))
      · exact hds x hmem

/-- The decimal representation of a natural number consists of digit
characters only. -/
theorem toString_nat_digitChars (n : Nat) :
    ∀ c ∈ (toString n).toList,
      c ∈ ['0', '1', '2', '3', '4', '5', '6', '7', '8', '9'] := by
  intro c hc
  have h : (toString n).toList = Nat.toDigits 10 n := rfl
  rw [h] at hc
  exact toDigitsCore_digitChars (n + 1) n [] (by intro x hx; simp at hx) c hc

/-- Upper-casing a digit character is the identity. -/
theorem toUpper_digitChar (c : Char)
    (h : c ∈ ['0', '1', '2', '3', '4', '5', '6', '7', '8', '9']) :
    c.toUpper = c := by
  fin_cases h <;> decide

/-- Digit characters are word characters. -/
theorem isWordChar_digitChar (c : Char)
    (h : c ∈ ['0', '1', '2', '3', '4', '5', '6', '7', '8', '9']) :
    isWordChar c = true := by
  fin_cases h <;> decide

/-- Upper-casing maps a list of digit characters to itself. -/
theorem map_toUpper_digits (l : List Char)
    (h : ∀ c ∈ l, c ∈ ['0', '1', '2', '3', '4', '5', '6', '7', '8', '9']) :
    l.map Char.toUpper = l := by
  induction l with
  | nil => rfl
  | cons c cs ih =>
    rw [List.map_cons, toUpper_digitChar c (h c (by simp)),
      ih (fun x hx => h x (by simp [hx]))]

/-- Filtering word characters keeps a list of digit characters intact. -/
theorem filter_word_digits (l : List Char)
    (h : ∀ c ∈ l, c ∈ ['0', '1', '2', '3', '4', '5', '6', '7', '8', '9']) :
    l.filter isWordChar = l := by
  rw [List.filter_eq_self]
  intro c hc
  exact isWordChar_digitChar c (h c hc)

/-- Sanitizing the positional fallback `f"item{idx}"` yields
`"ITEM"` followed by the decimal index — never the empty string, so the
MD5 fallback is not taken for absent item numbers. -/
theorem sanitize_item_idx (idx : Nat) :
    removeNonWord (pyUpper ("item" ++ toString idx)) = "ITEM" ++ toString idx := by
  unfold removeNonWord pyUpper
  show ((('i' :: 't' :: 'e' :: 'm' :: (toString idx).toList).map
      Char.toUpper).filter isWordChar).asString = "ITEM" ++ toString idx
  rw [List.map_cons, List.map_cons, List.map_cons, List.map_cons,
    map_toUpper_digits _ (toString_nat_digitChars idx)]
  show (('I' :: 'T' :: 'E' :: 'M' :: (toString idx).toList).filter
      isWordChar).asString = "ITEM" ++ toString idx
  rw [List.filter_cons_of_pos (by decide), List.filter_cons_of_pos (by decide),
    List.filter_cons_of_pos (by decide), List.filter_cons_of_pos (by decide),
    filter_word_digits _ (toString_nat_digitChars idx)]
  rfl

/-- Claim C4, amended: `chunk_id` is the meeting code joined by `_` to a
sanitized id, where sanitizing keeps the word characters (letters,
digits, underscore — not strictly alphanumeric) of the upper-cased
stripped item number; when the item number is absent (empty after
stripping) the positional id `ITEM{idx}` is used — not an MD5; the
MD5-derived fallback `ID + md5(item_title)[:6]` (computed from the item
TITLE, not the item content) is used exactly when the item number is
present but sanitizes to the empty string. -/
theorem chunk_id_characterisation (m : RawMeeting) (idx : Nat) (item : RawItem) :
    (pyStrip item.item_number = "" →
      chunkGet (mkChunk m idx item) ("chunk_id") =
        some (JVal.s (m.web_meeting_code ++ "_" ++ ("ITEM" ++ toString idx)))) ∧
    (pyStrip item.item_number ≠ "" →
      removeNonWord (pyUpper (pyStrip item.item_number)) ≠ "" →
      chunkGet (mkChunk m idx item) ("chunk_id") =
        some (JVal.s (m.web_meeting_code ++ "_" ++
          removeNonWord (pyUpper (pyStrip item.item_number))))) ∧
    (pyStrip item.item_number ≠ "" →
      removeNonWord (pyUpper (pyStrip item.item_number)) = "" →
      chunkGet (mkChunk m idx item) ("chunk_id") =
        some (JVal.s (m.web_meeting_code ++ "_" ++
          ("ID" ++ (md5hex (pyStrip item.item_title)).take 6)))) := by
  refine ⟨?_, ?_, ?_⟩
  · intro h0
    have hinner : (if pyStrip item.item_number ≠ ""
        then pyStrip item.item_number
        else "item" ++ toString idx) = "item" ++ toString idx :=
      if_neg (by simp [h0])
    have hne : "ITEM" ++ toString idx ≠ "" := by
      intro hcontra
      have h2 : ("ITEM" ++ toString idx).toList =
          'I' :: 'T' :: 'E' :: 'M' :: (toString idx).toList := rfl
      rw [hcontra] at h2
      simp at h2
    rw [chunkGet_chunk_id, hinner, sanitize_item_idx, if_neg hne]
  · intro h0 h1
    have hinner : (if pyStrip item.item_number ≠ ""
        then pyStrip item.item_number
        else "item" ++ toString idx) = pyStrip item.item_number := if_pos h0
    rw [chunkGet_chunk_id, hinner, if_neg h1]
  · intro h0 h1
    have hinner : (if pyStrip item.item_number ≠ ""
        then pyStrip item.item_number
        else "item" ++ toString idx) = pyStrip item.item_number := if_pos h0
    rw [chunkGet_chunk_id, hinner, if_pos h1]

/-- Witness for the amended claim C4, exercising the absent-item-number
branch (positional id) and the sanitised-item-number branch at concrete
inputs. -/
theorem chunk_id_characterisation_witness :
    pyStrip ("" : String) = "" ∧
    chunkGet (mkChunk noNumberMeeting 0 noNumberItem) ("chunk_id") =
      some (JVal.s ("9001" ++ "_" ++ ("ITEM" ++ toString 0))) ∧
    pyStrip (" 1. " : String) ≠ "" ∧
    removeNonWord (pyUpper (pyStrip (" 1. " : String))) ≠ "" ∧
    chunkGet (mkChunk noNumberMeeting 3
        { item_number := " 1. ", item_title := "Budget", item_text := "" })
        ("chunk_id") =
      some (JVal.s ("9001" ++ "_" ++
        removeNonWord (pyUpper (pyStrip (" 1. " : String))))) := by
  refine ⟨rfl, ?_, by decide, by decide, ?_⟩
  · exact (chunk_id_characterisation noNumberMeeting 0 noNumberItem).1 rfl
  · exact (chunk_id_characterisation noNumberMeeting 3
      { item_number := " 1. ", item_title := "Budget", item_text := "" }).2.1
      (by decide) (by decide)

/-! ## Claim C5 -/

/-- Characters produced by the run-collapsing step are kept `[a-z0-9]`
characters or underscores. -/
theorem collapseAux_chars : ∀ (b : Bool) (l : List Char),
    ∀ c ∈ collapseAux b l, slugChar c = true ∨ c = '_' := by
  intro b l
  induction l generalizing b with
  | nil => intro c hc; simp [collapseAux] at hc
  | cons x xs ih =>
    intro c hc
    unfold collapseAux at hc
    split at hc
    · rcases List.mem_cons.1 hc with rfl | hmem
      · left; assumption
      · exact ih false c hmem
    · rcases List.mem_append.1 hc with hmem | hmem
      · rcases hb : b with _ | _
        · rw [hb] at hmem
          right
          simpa using hmem
        · rw [hb] at hmem
          simp at hmem
      · exact ih true c hmem

/-- Membership survives the underscore stripping. -/
theorem mem_stripUnderscore (s : String) (c : Char)
    (h : c ∈ (stripUnderscore s).toList) : c ∈ s.toList := by
  unfold stripUnderscore at h
  have h1 : c ∈ ((s.toList.dropWhile (fun c => c == '_')).reverse.dropWhile
      (fun c => c == '_')).reverse := h
  rw [List.mem_reverse] at h1
  have hs1 : ((s.toList.dropWhile (fun c => c == '_')).reverse.dropWhile
      (fun c => c == '_')).Sublist (s.toList.dropWhile (fun c => c == '_')).reverse :=
    List.dropWhile_sublist _
  have h2 := hs1.mem h1
  rw [List.mem_reverse] at h2
  have hs2 : (s.toList.dropWhile (fun c => c == '_')).Sublist s.toList :=
    List.dropWhile_sublist _
  exact hs2.mem h2

/-- Every character of a slug is a lower-case ASCII letter, a digit, or
an underscore. -/
theorem slugify_chars (t : String) :
    ∀ c ∈ (slugify t).toList, slugChar c = true ∨ c = '_' := by
  intro c hc
  unfold slugify at hc
  have h1 := mem_stripUnderscore _ c hc
  exact collapseAux_chars false _ c h1

/-- Claim C5 as stated is false: a metadata record built by the
events-registry builder for committee "Cabinet" on 2025-01-30 carries
`meeting_id = "2025-01-30_kent_cc__cabinet"`, which is not of the form
`"{council_code}_{web_meeting_code}"` (it does not even start with the
council code `kent_cc`); and the scraper's meeting records carry no
`meeting_id` key at all. -/
theorem meeting_id_format_counterexample :
    chunkGet (newMeetingRecord ("Cabinet") ("2025-01-30")
        ("data/council_documents/cabinet/2025-01-30")) ("meeting_id") =
      some (JVal.s "2025-01-30_kent_cc__cabinet") ∧
    ("kent_cc".toList.isPrefixOf
      ("2025-01-30_kent_cc__cabinet" : String).toList) = false ∧
    "meeting_id" ∉ recKeys (ScrapeRec.full sampleMeetingRecord) := by
  refine ⟨rfl, by decide, by decide⟩

/-- Claim C5, amended: the only `meeting_id` the sources construct is the
events-registry builder's `f"{date_str}_{committee_id}"` with
`committee_id = f"kent_cc__{slugify(committee_name)}"` (the slug using
only `[a-z0-9_]` characters); scraped meeting records identify meetings
by `web_meeting_code` and carry no `meeting_id` field. -/
theorem meeting_id_shape (committee_name date_str folder_path : String)
    (r : MeetingRecord) :
    chunkGet (newMeetingRecord committee_name date_str folder_path)
        ("meeting_id") =
      some (JVal.s (date_str ++ "_" ++ ("kent_cc__" ++ slugify committee_name))) ∧
    chunkKeys (newMeetingRecord committee_name date_str folder_path) =
      ["meeting_id", "committee_id", "meeting_date", "folder_path"] ∧
    "meeting_id" ∉ recKeys (ScrapeRec.full r) ∧
    (∀ c ∈ (slugify committee_name).toList, slugChar c = true ∨ c = '_') := by
  refine ⟨rfl, rfl, ?_, slugify_chars committee_name⟩
  have hkeys : recKeys (ScrapeRec.full r) =
      ["web_meeting_code", "meeting_title", "meeting_status", "committee_name",
       "meeting_date", "meeting_time", "agenda_items"] := rfl
  rw [hkeys]
  decide

/-- Witness for the amended claim C5 at committee "Cabinet". -/
theorem meeting_id_shape_witness :
    chunkGet (newMeetingRecord ("Cabinet") ("2025-01-30") ("cabinet/2025-01-30"))
        ("meeting_id") =
      some (JVal.s ("2025-01-30" ++ "_" ++ ("kent_cc__" ++ slugify ("Cabinet")))) ∧
    'c' ∈ (slugify ("Cabinet")).toList ∧
    (slugChar 'c' = true ∨ 'c' = '_') := by
  refine ⟨(meeting_id_shape ("Cabinet") ("2025-01-30") ("cabinet/2025-01-30")
    sampleMeetingRecord).1, by decide, ?_⟩
  exact (meeting_id_shape ("Cabinet") ("2025-01-30") ("cabinet/2025-01-30")
    sampleMeetingRecord).2.2.2 'c' (by decide)

/-! ## Claim C7 -/

/-- Claim C7's conclusion fails on the draft code: the link-collection
loop's dedup test compares the relative `href` against a list of absolute
URLs, so it never filters; a politics page listing the same
`/kent/news/a1` link twice yields two fetched articles with the same URL,
and a run against an empty store appends both — the stored URLs are no
longer pairwise distinct.  (Store-level dedup, by contrast, works: both
copies are filtered on the next run.) -/
theorem news_duplicate_urls :
    (newsRun sampleNewsEnv dupHrefs []).map (fun a => a.url) =
      ["https://www.kentonline.co.uk/kent/news/a1",
       "https://www.kentonline.co.uk/kent/news/a1"] ∧
    ¬ ((newsRun sampleNewsEnv dupHrefs []).map (fun a => a.url)).Nodup ∧
    newsRun sampleNewsEnv dupHrefs (newsRun sampleNewsEnv dupHrefs []) =
      newsRun sampleNewsEnv dupHrefs [] := by
  refine ⟨rfl, by decide, rfl⟩

/-! ## Claim C10 -/

/-- Claim C10: when every article fetched in a run has a URL already
present in the store, `new_articles` is empty, the save guard is false
and the store file is not rewritten (the run leaves the store unchanged);
conversely the file is only rewritten when at least one fetched URL was
previously unseen. -/
theorem news_save_guard (env : NewsEnv) (hrefs : List String)
    (existing : List NewsArticle) :
    ((∀ a ∈ articlesData env hrefs, a.url ∈ existing.map (fun b => b.url)) →
      newsSave existing (articlesData env hrefs) = none ∧
      newsRun env hrefs existing = existing) ∧
    (∀ result, newsSave existing (articlesData env hrefs) = some result →
      ∃ a ∈ articlesData env hrefs, a.url ∉ existing.map (fun b => b.url)) := by
  constructor
  · intro hall
    have hempty : (articlesData env hrefs).filter
        (fun a => !((existing.map (fun b => b.url)).contains a.url)) = [] := by
      rw [List.filter_eq_nil_iff]
      intro a ha
      have h1 : (List.map (fun b => b.url) existing).contains a.url = true :=
        List.elem_iff.2 (hall a ha)
      simp only [h1, Bool.not_true, Bool.false_eq_true, not_false_eq_true]
    constructor
    · unfold newsSave
      simp only []
      rw [hempty]
      rfl
    · unfold newsRun newsSave
      simp only []
      rw [hempty]
      rfl
  · intro result hsome
    unfold newsSave at hsome
    simp only [] at hsome
    rcases hf : (articlesData env hrefs).filter
        (fun a => !((existing.map (fun b => b.url)).contains a.url)) with _ | ⟨a, rest⟩
    · rw [hf] at hsome
      simp at hsome
    · have hmem : a ∈ (articlesData env hrefs).filter
          (fun a => !((existing.map (fun b => b.url)).contains a.url)) := by
        rw [hf]
        simp
      rcases List.mem_filter.1 hmem with ⟨hin, hcond⟩
      refine ⟨a, hin, ?_⟩
      intro hcontra
      have hc2 : (existing.map (fun b => b.url)).contains a.url = true :=
        List.elem_iff.2 hcontra
      rw [hc2] at hcond
      simp at hcond

/-- Witness for claim C10: a store already holding the only listed
article is left unchanged by a re-run; a run against an empty store
rewrites the file and indeed fetched a previously unseen URL. -/
theorem news_save_guard_witness :
    (∀ a ∈ articlesData sampleNewsEnv ["/kent/news/a1"],
      a.url ∈ [articleA1].map (fun b => b.url)) ∧
    newsSave [articleA1] (articlesData sampleNewsEnv ["/kent/news/a1"]) = none ∧
    newsRun sampleNewsEnv ["/kent/news/a1"] [articleA1] = [articleA1] ∧
    newsSave [] (articlesData sampleNewsEnv ["/kent/news/a1"]) = some [articleA1] ∧
    (∃ a ∈ articlesData sampleNewsEnv ["/kent/news/a1"],
      a.url ∉ ([] : List NewsArticle).map (fun b => b.url)) := by
  have h1 := (news_save_guard sampleNewsEnv ["/kent/news/a1"] [articleA1]).1
    (by decide)
  refine ⟨by decide, h1.1, h1.2, rfl, ?_⟩
  exact (news_save_guard sampleNewsEnv ["/kent/news/a1"] []).2 [articleA1] rfl

/-! ## Claim C8 -/

/-- `isPrefixOf` against the empty list tests emptiness. -/
theorem isPrefixOf_nil_eq (pat : List Char) :
    pat.isPrefixOf ([] : List Char) = pat.isEmpty := by
  cases pat <;> rfl

/-- A pattern avoiding a separator character is a prefix of
`s1 ++ sep :: s2` exactly when it is a prefix of `s1`. -/
theorem isPrefixOf_append_sep (sep : Char) :
    ∀ (pat : List Char), sep ∉ pat →
      ∀ s1 s2 : List Char, pat.isPrefixOf (s1 ++ sep :: s2) = pat.isPrefixOf s1 := by
  intro pat
  induction pat with
  | nil => intro _ s1 s2; cases s1 <;> rfl
  | cons p ps ih =>
    intro hsep s1 s2
    rcases s1 with _ | ⟨c, cs⟩
    · show ((p == sep) && ps.isPrefixOf s2) = false
      have hp : (p == sep) = false := by
        rw [beq_eq_false_iff_ne]
        intro h
        exact hsep (by rw [h]; exact List.mem_cons_self _ _)
      rw [hp, Bool.false_and]
    · show ((p == c) && ps.isPrefixOf (cs ++ sep :: s2)) =
        ((p == c) && ps.isPrefixOf cs)
      rw [ih (fun h => hsep (List.mem_cons_of_mem _ h)) cs s2]

/-- Occurrences of a pattern avoiding a separator split across the
separator: none can straddle it. -/
theorem countOccsAux_append_sep (sep : Char) (pat : List Char)
    (hsep : sep ∉ pat) :
    ∀ s1 s2 : List Char,
      countOccsAux pat (s1 ++ sep :: s2) =
        countOccsAux pat s1 + countOccsAux pat s2 := by
  intro s1
  induction s1 with
  | nil =>
    intro s2
    show (if pat.isPrefixOf (sep :: s2) then 1 else 0) + countOccsAux pat s2 =
      (if pat.isEmpty then 1 else 0) + countOccsAux pat s2
    have h1 : pat.isPrefixOf (sep :: s2) = pat.isEmpty := by
      have h2 : pat.isPrefixOf (([] : List Char) ++ sep :: s2) =
          pat.isPrefixOf ([] : List Char) := isPrefixOf_append_sep sep pat hsep [] s2
      rw [isPrefixOf_nil_eq] at h2
      exact h2
    rw [h1]
  | cons c cs ih =>
    intro s2
    show (if pat.isPrefixOf (c :: (cs ++ sep :: s2)) then 1 else 0) +
        countOccsAux pat (cs ++ sep :: s2) =
      ((if pat.isPrefixOf (c :: cs) then 1 else 0) + countOccsAux pat cs) +
        countOccsAux pat s2
    have h2 : pat.isPrefixOf (c :: (cs ++ sep :: s2)) = pat.isPrefixOf (c :: cs) :=
      isPrefixOf_append_sep sep pat hsep (c :: cs) s2
    rw [h2, ih]
    omega

/-- String append concatenates the character lists. -/
theorem toList_append (a b : String) : (a ++ b).toList = a.toList ++ b.toList := rfl

/-- The newline separator as a character list. -/
theorem newline_toList : ("\n").toList = ['\n'] := by decide

/-- Counting a newline-free pattern in newline-joined lines sums the
per-line counts (no occurrence can span a line break). -/
theorem countOccs_joinLines (pat : String) (hsep : '\n' ∉ pat.toList) :
    ∀ (l : String) (ls : List String),
      countOccs (joinLines (l :: ls)) pat =
        ((l :: ls).map (fun x => countOccs x pat)).sum := by
  intro l ls
  induction ls generalizing l with
  | nil => simp [joinLines, countOccs]
  | cons m ms ih =>
    have hj : joinLines (l :: m :: ms) = l ++ "\n" ++ joinLines (m :: ms) := rfl
    rw [hj]
    unfold countOccs
    have hchars : (l ++ "\n" ++ joinLines (m :: ms)).toList =
        l.toList ++ '\n' :: (joinLines (m :: ms)).toList := by
      rw [toList_append, toList_append, List.append_assoc, newline_toList,
        List.singleton_append]
    rw [hchars, countOccsAux_append_sep '\n' pat.toList hsep]
    have hih := ih m
    unfold countOccs at hih
    rw [hih]
    simp [List.sum_cons]

/-- A full line of the joined text occurs in it as a substring. -/
theorem mem_joinLines_containsSub (l : String) :
    ∀ ls : List String, l ∈ ls → containsSub (joinLines ls) l = true := by
  intro ls
  induction ls with
  | nil => intro h; simp at h
  | cons m ms ih =>
    intro h
    rcases List.mem_cons.1 h with rfl | hmem
    · rcases ms with _ | ⟨m2, ms2⟩
      · unfold containsSub
        simp [joinLines]
      · unfold containsSub
        apply decide_eq_true
        show List.IsInfix l.toList (l ++ "\n" ++ joinLines (m2 :: ms2)).toList
        refine ⟨[], '\n' :: (joinLines (m2 :: ms2)).toList, ?_⟩
        rw [toList_append, toList_append, List.nil_append, List.append_assoc,
          newline_toList, List.singleton_append]
    · have hne : ms ≠ [] := by
        intro hcontra
        rw [hcontra] at hmem
        simp at hmem
      rcases ms with _ | ⟨m2, ms2⟩
      · exact absurd rfl hne
      · have hi := ih hmem
        unfold containsSub at hi ⊢
        apply decide_eq_true
        have hi2 : List.IsInfix l.toList (joinLines (m2 :: ms2)).toList :=
          of_decide_eq_true hi
        show List.IsInfix l.toList (m ++ "\n" ++ joinLines (m2 :: ms2)).toList
        refine hi2.trans ?_
        have htl : (m ++ "\n" ++ joinLines (m2 :: ms2)).toList =
            m.toList ++ ('\n' :: (joinLines (m2 :: ms2)).toList) := by
          rw [toList_append, toList_append, List.append_assoc, newline_toList,
            List.singleton_append]
        rw [htl]
        exact List.IsSuffix.isInfix ⟨m.toList ++ ['\n'], by simp⟩

set_option maxRecDepth 8000 in
/-- Claim C8 as stated is false: the planning-committee
structured-extraction template contains no `{{TRANSCRIPT}}` placeholder
at all (its occurrence count is 0, not 1). -/
theorem template_placeholder_counterexample :
    countOccs planningCommitteeTemplate transcriptPlaceholder ≠ 1 := by
  unfold planningCommitteeTemplate planningCommitteeTemplateLines
  rw [countOccs_joinLines transcriptPlaceholder (by decide)]
  decide

set_option maxRecDepth 8000 in
/-- Claim C8, amended: the general-minutes and full-council templates
each contain exactly one `{{TRANSCRIPT}}` substitution placeholder, while
the planning-committee structured-extraction template contains none; the
narrative-summary (general-minutes) template fixes a 300-word cap on the
summary. -/
theorem template_placeholder_counts :
    countOccs generalMinutesTemplate transcriptPlaceholder = 1 ∧
    countOccs planningCommitteeTemplate transcriptPlaceholder = 0 ∧
    countOccs fullCouncilTemplate transcriptPlaceholder = 1 ∧
    containsSub generalMinutesTemplate
      ("**The entire summary must fit within 300 words.**") = true := by
  refine ⟨?_, ?_, ?_, ?_⟩
  · unfold generalMinutesTemplate generalMinutesTemplateLines
    rw [countOccs_joinLines transcriptPlaceholder (by decide)]
    decide
  · unfold planningCommitteeTemplate planningCommitteeTemplateLines
    rw [countOccs_joinLines transcriptPlaceholder (by decide)]
    decide
  · unfold fullCouncilTemplate fullCouncilTemplateLines
    rw [countOccs_joinLines transcriptPlaceholder (by decide)]
    decide
  · unfold generalMinutesTemplate
    exact mem_joinLines_containsSub _ _ (by decide)
